import Mathlib

/-!
Verification development for the technotaggr audio-tagging pipeline.

This file gives a shallow embedding, in Lean 4, of the pure computational
core of the repository:

* `src/technotaggr/postprocessing.py` — the 16-bar phrase aggregation pass
  (segment duration derivation, hop duration, segments-per-phrase,
  chunking, bar predictions);
* `src/technotaggr/model_loader.py` — classifier descriptor resolution and
  discovery;
* `src/technotaggr/inference.py` — the caching inference pipeline
  (embedding cache, extractor/classifier handle caches, per-classifier
  error containment);
* `src/technotaggr/result_logger.py` — the session result accumulator.

Python floats are modelled as rationals (`ℚ`); Python's `round` (banker's
rounding, round-half-to-even) is modelled exactly by `pyRound`.  External
collaborators (the filesystem, JSON parsing, librosa tempo estimation,
essentia model execution, audio decoding) are abstracted as explicit
parameters: a descriptor value stands for the parsed JSON file, boolean
flags stand for file-existence checks, and the extractor / classifier /
loader calls are opaque function parameters.  Every structural decision —
which checks run in which order, what is cached under which key, what is
skipped on failure — is translated directly from the Python source.
-/

namespace TechnoTaggr

/-! ### Rational helpers: Python `round` -/

/-- Floor of a rational number, computed on the numerator and denominator. -/
def ratFloor (q : ℚ) : ℤ := q.num.fdiv q.den

/-- Python 3 `round` on an exact rational: round to the nearest integer,
ties going to the even neighbour (banker's rounding). -/
def pyRound (q : ℚ) : ℤ :=
  if q - ratFloor q < 1/2 then ratFloor q
  else if (1 : ℚ)/2 < q - ratFloor q then ratFloor q + 1
  else if 2 ∣ ratFloor q then ratFloor q else ratFloor q + 1

/-- Python `round(q, n)`: round to `n` decimal digits. -/
def pyRoundTo (n : ℕ) (q : ℚ) : ℚ := (pyRound (q * 10 ^ n) : ℚ) / 10 ^ n

theorem ratFloor_eq_floor (q : ℚ) : ratFloor q = ⌊q⌋ := by
  rw [Rat.floor_def]
  exact Int.fdiv_eq_ediv _ (Int.natCast_nonneg _)

theorem pyRound_intCast (z : ℤ) : pyRound (z : ℚ) = z := by
  unfold pyRound
  rw [ratFloor_eq_floor, Int.floor_intCast, sub_self]
  norm_num

theorem pyRound_natCast (n : ℕ) : pyRound (n : ℚ) = n := by
  have h := pyRound_intCast (n : ℤ)
  rwa [Int.cast_natCast] at h

/-! ### Mean of a list of vectors (`np.mean(..., axis=0)`)

`vecMean rows` is the per-class arithmetic mean of `rows`, a list of
equal-length probability vectors (the embedding of
`np.mean(np.array(rows), axis=0).tolist()` on a rectangular matrix). -/

/-- Pointwise sum of a list of equal-length vectors, starting from a zero
vector of the width of the first row. -/
def vecSum (width : ℕ) (rows : List (List ℚ)) : List ℚ :=
  rows.foldr (fun r acc => List.zipWith (· + ·) r acc) (List.replicate width 0)

/-- Per-column arithmetic mean of a list of equal-length vectors; the
embedding of `np.mean(np.array(rows), axis=0)` for a rectangular matrix. -/
def vecMean (rows : List (List ℚ)) : List ℚ :=
  match rows with
  | [] => []
  | r :: _ => (vecSum r.length rows).map (fun x => x / (rows.length : ℚ))

/-! ### postprocessing.py -/

/-- Essentia uses TensorflowInputMusiCNN internally with a base patch size
of 64 = 1 second (`PATCHES_PER_SECOND` in postprocessing.py). -/
def PATCHES_PER_SECOND : ℚ := 64

/-- Segment predictions share 50% overlap between consecutive segments
(`SEGMENT_OVERLAP` in postprocessing.py). -/
def SEGMENT_OVERLAP : ℚ := 1/2

/-- Patch size derived from the embedding model's input shape:
2-D shape `[time, features]` uses `shape[0]`; 3-D shape
`[batch, time, features]` uses `shape[1]`; any other rank is rejected
(the shape-dispatch inside `get_embedding_model_segment_duration`). -/
def patch_size_of_shape (shape : List ℤ) : Option ℤ :=
  if shape.length = 2 then shape[0]?
  else if shape.length = 3 then shape[1]?
  else none

/-- Embedding of `get_embedding_model_segment_duration`.  The JSON config
read from disk is abstracted by `shape_of`, which returns the input shape
`schema.inputs[0].shape` published for an embedding model path, or `none`
when the JSON file is missing, unreadable, or has no inputs.  On success
the segment duration is `round(patch_size / PATCHES_PER_SECOND)` seconds. -/
def get_embedding_model_segment_duration (shape_of : String → Option (List ℤ))
    (embedding_model_path : String) : Option ℚ :=
  match shape_of embedding_model_path with
  | none => none
  | some shape =>
      (patch_size_of_shape shape).map
        (fun patch_size => ((pyRound ((patch_size : ℚ) / PATCHES_PER_SECOND) : ℤ) : ℚ))

/-- Fallback used by `postprocess_audio_result` when
`get_embedding_model_segment_duration` returns `None`: estimate the
segment duration as `audio_duration / num_segments`. -/
def segment_duration_or_fallback (sd : Option ℚ) (audio_duration : ℚ)
    (num_segments : ℕ) : ℚ :=
  match sd with
  | some d => d
  | none => audio_duration / (num_segments : ℚ)

/-- Embedding of `calculate_phrase_duration`: the duration of a 16-bar
phrase in 4/4 time, `16 * 4 * (60 / bpm)` seconds. -/
def calculate_phrase_duration (bpm : ℚ) : ℚ :=
  16 * 4 * (60 / bpm)

/-- Hop duration between consecutive (overlapping) segments, from
`postprocess_audio_result`: `segment_duration * (1 - SEGMENT_OVERLAP)`,
falling back to `segment_duration` when that product is not positive. -/
def hop_duration (segment_duration : ℚ) : ℚ :=
  let h := segment_duration * (1 - SEGMENT_OVERLAP)
  if h ≤ 0 then segment_duration else h

/-- Segments per 16-bar phrase, from `postprocess_audio_result`: `1` when
the phrase fits inside one segment, otherwise the solution `n` of
`(n - 1) * hop_duration + segment_duration = phrase_duration`. -/
def segments_per_phrase (phrase_duration segment_duration : ℚ) : ℚ :=
  if phrase_duration ≤ segment_duration then 1
  else (phrase_duration - segment_duration) / hop_duration segment_duration + 1

/-- Chunk size used by `chunk_predictions`:
`max(1, round(segments_per_phrase))`. -/
def chunk_size (segments_per_phrase : ℚ) : ℕ :=
  (max 1 (pyRound segments_per_phrase)).toNat

/-- Fuel-indexed splitting of a list into consecutive chunks of `k`
elements (the loop `for start in range(0, num_segments, chunk_size)`),
with the fuel bounding the number of chunks produced. -/
def chunksOfAux {α : Type} (k : ℕ) : ℕ → List α → List (List α)
  | _, [] => []
  | 0, _ :: _ => []
  | fuel + 1, x :: xs => (x :: xs).take k :: chunksOfAux k fuel ((x :: xs).drop k)

/-- Embedding of `chunk_predictions`: split the ordered segment
predictions into consecutive chunks of `max(1, round(segments_per_phrase))`
segments, the final chunk possibly shorter. -/
def chunk_predictions (predictions : List (List ℚ))
    (segments_per_phrase : ℚ) : List (List (List ℚ)) :=
  if predictions = [] then []
  else chunksOfAux (chunk_size segments_per_phrase) predictions.length predictions

/-- Embedding of `compute_bar_predictions`: the per-chunk means
(`bar_predictions`) and the mean of those means zipped with the class
names (`aggregated_bar_predictions`). -/
def compute_bar_predictions (chunks : List (List (List ℚ)))
    (classes : List String) : List (List ℚ) × List (String × ℚ) :=
  if chunks = [] then ([], [])
  else
    let bar_predictions := chunks.map vecMean
    let overall_mean := vecMean bar_predictions
    (bar_predictions, classes.zip overall_mean)

/-! ### postprocessing.py: the per-audio result record and the phrase pass

An audio result dictionary from the session JSON is modelled as
`AudioResult`; a per-model entry as `ModelEntry`.  The optional
`bpm` / `phrase_duration_seconds` / `bar_predictions` /
`aggregated_bar_predictions` keys, added only by the phrase-aggregation
pass, are `Option` fields (`none` = key absent). -/

/-- One entry of a result's `models` list (the keys read and written by
`postprocess_audio_result`). -/
structure ModelEntry where
  model_name : String
  embedding_model : String
  embedding_model_path : String
  classes : List String
  num_segments : ℕ
  segment_predictions : List (List ℚ)
  aggregated_predictions : List (String × ℚ)
  bar_predictions : Option (List (List ℚ))
  aggregated_bar_predictions : Option (List (String × ℚ))
deriving DecidableEq

/-- One audio result dictionary from the session JSON. -/
structure AudioResult where
  audio_file : String
  audio_duration_seconds : ℚ
  sample_rate : ℤ
  bpm : Option ℚ
  phrase_duration_seconds : Option ℚ
  models : List ModelEntry
deriving DecidableEq

/-- Mirror of the dataclass `ModelPostprocessInfo`. -/
structure ModelPostprocessInfo where
  model_name : String
  embedding_model : String
  segment_duration_seconds : ℚ
  num_segments : ℕ
  segments_per_phrase : ℚ
  num_phrases : ℕ
deriving DecidableEq

/-- Mirror of the dataclass `AudioPostprocessResult`. -/
structure AudioPostprocessResult where
  audio_file : String
  audio_duration_seconds : ℚ
  bpm : ℚ
  phrase_duration_seconds : ℚ
  models : List ModelPostprocessInfo
deriving DecidableEq

/-- Body of the `for model in result.get("models", [])` loop of
`postprocess_audio_result`: a model entry with zero segments (or no
segment predictions) is skipped unchanged; otherwise the segment
duration is derived (with fallback), hop duration and segments-per-phrase
are computed, the predictions are chunked and aggregated, and the
`bar_predictions` / `aggregated_bar_predictions` keys are written. -/
def postprocess_model_entry (shape_of : String → Option (List ℤ))
    (audio_duration phrase_duration : ℚ) (m : ModelEntry) :
    ModelEntry × Option ModelPostprocessInfo :=
  if m.num_segments = 0 ∨ m.segment_predictions = [] then (m, none)
  else
    let segment_duration :=
      segment_duration_or_fallback
        (get_embedding_model_segment_duration shape_of m.embedding_model_path)
        audio_duration m.num_segments
    let spp := segments_per_phrase phrase_duration segment_duration
    let chunks := chunk_predictions m.segment_predictions spp
    let bar := compute_bar_predictions chunks m.classes
    let m' := { m with bar_predictions := some bar.1,
                       aggregated_bar_predictions := some bar.2 }
    let target_num_phrases := (max 1 (pyRound ((bar.1.length : ℕ) : ℚ))).toNat
    (m', some { model_name := m.model_name,
                embedding_model := m.embedding_model,
                segment_duration_seconds := pyRoundTo 3 segment_duration,
                num_segments := m.num_segments,
                segments_per_phrase := pyRoundTo 2 spp,
                num_phrases := target_num_phrases })

/-- Embedding of `postprocess_audio_result`.  The filesystem check
`audio_path.exists()` is the flag `audio_exists`; librosa's
`estimate_bpm` is the abstract value `est_bpm`; the embedding-model JSON
files are abstracted by `shape_of` (see
`get_embedding_model_segment_duration`).  When the audio file cannot be
located the result is returned unchanged with a `none` summary;
otherwise the bpm and phrase-duration keys are written and every model
entry is processed in order. -/
def postprocess_audio_result (audio_exists : Bool) (est_bpm : ℚ)
    (shape_of : String → Option (List ℤ)) (result : AudioResult) :
    AudioResult × Option AudioPostprocessResult :=
  if !audio_exists then (result, none)
  else
    let bpm := est_bpm
    let phrase_duration := calculate_phrase_duration bpm
    let processed := result.models.map
      (postprocess_model_entry shape_of result.audio_duration_seconds phrase_duration)
    let result' := { result with
                     bpm := some (pyRoundTo 2 bpm),
                     phrase_duration_seconds := some (pyRoundTo 3 phrase_duration),
                     models := processed.map Prod.fst }
    let summary : AudioPostprocessResult :=
      { audio_file := result.audio_file,
        audio_duration_seconds := result.audio_duration_seconds,
        bpm := pyRoundTo 2 bpm,
        phrase_duration_seconds := pyRoundTo 3 phrase_duration,
        models := processed.filterMap Prod.snd }
    (result', some summary)

/-! ### model_loader.py

A classifier's JSON descriptor file, together with the filesystem facts
the loader checks, is modelled as `ClassifierDescriptor`: `Option` fields
stand for JSON keys that may be absent (or null), `json_exists` /
`json_parses` / `pb_exists` stand for the existence and parseability
checks, and `_load_embedding_model_config` — itself a filesystem walk —
is abstracted as a `lookup_embedding` function from
`(algorithm, model_name)` to a resolved `EmbeddingModelConfig` or
`none`. -/

/-- Mirror of the dataclass `EmbeddingModelConfig`. -/
structure EmbeddingModelConfig where
  name : String
  algorithm : String
  model_path : String
  sample_rate : ℤ
  output_node : String
deriving DecidableEq

/-- Mirror of the dataclass `ClassifierConfig` (the metadata dict is the
six optional pass-through keys collected by `load_classifier_config`). -/
structure ClassifierConfig where
  name : String
  version : String
  description : String
  algorithm : String
  model_path : String
  sample_rate : ℤ
  classes : List String
  input_node : String
  output_node : String
  embedding_model : EmbeddingModelConfig
  metadata : List (String × Option String)
deriving DecidableEq

/-- One entry of `schema.outputs[]`: its `name` and `output_purpose`
keys, each possibly absent. -/
structure OutputNodeDesc where
  name : Option String
  output_purpose : Option String
deriving DecidableEq

/-- A classifier descriptor JSON file as consumed by
`load_classifier_config`, plus the filesystem facts it checks. -/
structure ClassifierDescriptor where
  stem : String
  json_exists : Bool
  json_parses : Bool
  name : Option String
  version : Option String
  description : Option String
  classes : List String
  algorithm : Option String
  sample_rate : Option ℤ
  input_names : List (Option String)
  outputs : List OutputNodeDesc
  embedding_algorithm : Option String
  embedding_model_name : Option String
  author : Option String
  email : Option String
  release_date : Option String
  framework : Option String
  framework_version : Option String
  dataset : Option String
  pb_path : String
  pb_exists : Bool
deriving DecidableEq

/-- Python truthiness of an optional string: `None` and `""` are falsy. -/
def strTruthy : Option String → Bool
  | none => false
  | some s => !s.isEmpty

/-- Embedding of `_find_output_node`: the `name` of the first output
whose `output_purpose` equals `purpose` (`none` when no output matches,
or the matching output has no name). -/
def find_output_node (outputs : List OutputNodeDesc) (purpose : String) :
    Option String :=
  match outputs.find? (fun o => o.output_purpose == some purpose) with
  | none => none
  | some o => o.name

/-- Embedding of `_find_input_node`: the `name` of the first declared
input. -/
def find_input_node (inputs : List (Option String)) : Option String :=
  match inputs with
  | [] => none
  | i :: _ => i

/-- Embedding of `load_classifier_config`: resolve one classifier
descriptor, returning `none` (a skip) when the JSON file is missing or
unparseable, the input node or `"predictions"`-purpose output node is
missing, the embedding-model reference is incomplete or fails to
resolve, or the sibling `.pb` artifact file is missing.  Defaults mirror
the Python `config.get(...)` calls. -/
def load_classifier_config
    (lookup_embedding : String → String → Option EmbeddingModelConfig)
    (d : ClassifierDescriptor) : Option ClassifierConfig :=
  if !d.json_exists then none
  else if !d.json_parses then none
  else
    let input_node := find_input_node d.input_names
    if !strTruthy input_node then none
    else
      let output_node := find_output_node d.outputs "predictions"
      if !strTruthy output_node then none
      else if !strTruthy d.embedding_algorithm || !strTruthy d.embedding_model_name
      then none
      else
        match lookup_embedding (d.embedding_algorithm.getD "")
            (d.embedding_model_name.getD "") with
        | none => none
        | some embedding_config =>
            if !d.pb_exists then none
            else some
              { name := d.name.getD d.stem,
                version := d.version.getD "unknown",
                description := d.description.getD "",
                algorithm := d.algorithm.getD "TensorflowPredict2D",
                model_path := d.pb_path,
                sample_rate := d.sample_rate.getD 16000,
                classes := d.classes,
                input_node := input_node.getD "",
                output_node := output_node.getD "",
                embedding_model := embedding_config,
                metadata := [("author", d.author), ("email", d.email),
                             ("release_date", d.release_date),
                             ("framework", d.framework),
                             ("framework_version", d.framework_version),
                             ("dataset", d.dataset)] }

/-- Embedding of `discover_classifiers`: the classification-heads
directory tree is a list of subdirectories, each a list of the
descriptors of its JSON files (a subdirectory with no JSON files is the
empty list and contributes nothing).  Each descriptor is resolved with
`load_classifier_config`; the successfully resolved configs are
collected in traversal order. -/
def discover_classifiers
    (lookup_embedding : String → String → Option EmbeddingModelConfig) :
    List (List ClassifierDescriptor) → List ClassifierConfig
  | [] => []
  | ds :: rest =>
      ds.filterMap (load_classifier_config lookup_embedding)
        ++ discover_classifiers lookup_embedding rest

/-! ### inference.py

`InferencePipeline` holds three caches: embedding extractors keyed by
embedding-model name, classifiers keyed by model path (both living for
the pipeline's lifetime), and per-item embeddings keyed by
`(audio path, embedding-model name)`.  The essentia calls are abstracted
as parameters: `load` for `load_audio` (which may raise),
`get_duration` for `get_audio_duration`, `extract` for
`EmbeddingExtractor.extract` (from the embedding-model name and the
loaded audio), and `predict` for the classifier execution inside
`_run_classifier` (which may raise).  The state also carries two
observation logs, recording each `extract` invocation and each
`load_audio` invocation, so that call counts are provable. -/

/-- Mirror of the dataclass `PredictionResult`. -/
structure PredictionResult where
  classifier_name : String
  classifier_version : String
  classifier_path : String
  embedding_model_name : String
  embedding_model_path : String
  classes : List String
  segment_predictions : List (List ℚ)
  aggregated_predictions : List (String × ℚ)
  num_segments : ℕ
deriving DecidableEq

/-- Mirror of the dataclass `AudioAnalysisResult`. -/
structure AudioAnalysisResult where
  audio_path : String
  audio_duration_seconds : ℚ
  sample_rate : ℤ
  predictions : List PredictionResult
deriving DecidableEq

/-- Mutable state of an `InferencePipeline`: the two lifetime-long handle
caches (by name, by path), the item-scoped embeddings cache, and the two
observation logs. -/
structure InfState (Emb : Type) where
  extractors : List String
  classifiers : List String
  embCache : List ((String × String) × Emb)
  extractLog : List (String × String)
  loadLog : List String
deriving DecidableEq

/-- Lookup in the embeddings cache (a Python dict keyed by
`(audio path, embedding-model name)`). -/
def cacheLookup {Emb : Type} :
    List ((String × String) × Emb) → String × String → Option Emb
  | [], _ => none
  | (k, v) :: rest, q => if q = k then some v else cacheLookup rest q

/-- Embedding of `_get_embedding_extractor`: construct-once caching of
extractor handles by embedding-model name. -/
def get_embedding_extractor {Emb : Type} (name : String) (st : InfState Emb) :
    InfState Emb :=
  if name ∈ st.extractors then st
  else { st with extractors := st.extractors ++ [name] }

/-- Embedding of `_get_classifier`: construct-once caching of classifier
handles by model path. -/
def get_classifier {Emb : Type} (cfg : ClassifierConfig) (st : InfState Emb) :
    InfState Emb :=
  if cfg.model_path ∈ st.classifiers then st
  else { st with classifiers := st.classifiers ++ [cfg.model_path] }

/-- Embedding of `_get_embeddings`: on a cache hit return the cached
embeddings; on a miss obtain the extractor handle, run the extraction
(logged), and store the result in the item-scoped cache. -/
def get_embeddings {Emb A : Type} (extract : String → A → Emb) (audio : A)
    (audio_path : String) (emb_name : String) (st : InfState Emb) :
    Emb × InfState Emb :=
  match cacheLookup st.embCache (audio_path, emb_name) with
  | some e => (e, st)
  | none =>
      let st1 := get_embedding_extractor emb_name st
      let e := extract emb_name audio
      (e, { st1 with
              embCache := ((audio_path, emb_name), e) :: st1.embCache,
              extractLog := st1.extractLog ++ [(audio_path, emb_name)] })

/-- The `PredictionResult` built at the end of `_run_classifier` from a
classifier config and the predictions matrix. -/
def make_prediction_result (cfg : ClassifierConfig)
    (predictions : List (List ℚ)) : PredictionResult :=
  { classifier_name := cfg.name,
    classifier_version := cfg.version,
    classifier_path := cfg.model_path,
    embedding_model_name := cfg.embedding_model.name,
    embedding_model_path := cfg.embedding_model.model_path,
    classes := cfg.classes,
    segment_predictions := predictions,
    aggregated_predictions := cfg.classes.zip (vecMean predictions),
    num_segments := predictions.length }

/-- Embedding of `_run_classifier`: get the (cached) embeddings, get the
(cached) classifier handle, run it, and build the result; a raising
classifier execution is an `error` value. -/
def run_classifier {Emb A : Type} (extract : String → A → Emb)
    (predict : ClassifierConfig → Emb → Except String (List (List ℚ)))
    (audio : A) (audio_path : String) (cfg : ClassifierConfig)
    (st : InfState Emb) : Except String PredictionResult × InfState Emb :=
  let r := get_embeddings extract audio audio_path cfg.embedding_model.name st
  let st2 := get_classifier cfg r.2
  match predict cfg r.1 with
  | Except.error msg => (Except.error msg, st2)
  | Except.ok preds => (Except.ok (make_prediction_result cfg preds), st2)

/-- The `for classifier_config in self.classifier_configs` loop of
`analyze_audio`: run every classifier in order, appending each
successful prediction and skipping (with a log line) each failing one. -/
def run_classifiers {Emb A : Type} (extract : String → A → Emb)
    (predict : ClassifierConfig → Emb → Except String (List (List ℚ)))
    (audio : A) (audio_path : String) :
    List ClassifierConfig → InfState Emb →
    List PredictionResult × InfState Emb
  | [], st => ([], st)
  | cfg :: rest, st =>
      match run_classifier extract predict audio audio_path cfg st with
      | (Except.ok p, st1) =>
          let r := run_classifiers extract predict audio audio_path rest st1
          (p :: r.1, r.2)
      | (Except.error _, st1) =>
          run_classifiers extract predict audio audio_path rest st1

/-- Pure per-classifier outcome: what `_run_classifier` contributes for
one config once the audio is loaded (`none` when the classifier raises).
Because extraction is deterministic in the model, the cache changes the
work done but not the values produced. -/
def run_classifier_pure {Emb A : Type} (extract : String → A → Emb)
    (predict : ClassifierConfig → Emb → Except String (List (List ℚ)))
    (audio : A) (cfg : ClassifierConfig) : Option PredictionResult :=
  match predict cfg (extract cfg.embedding_model.name audio) with
  | Except.error _ => none
  | Except.ok preds => some (make_prediction_result cfg preds)

/-- Embedding of `analyze_audio`: raise `ValueError` when no classifiers
are configured (before loading any audio), load the audio once at the
first classifier's embedding-model sample rate (logged; a raising load
propagates), run every classifier with per-classifier error containment,
then clear the item-scoped embeddings cache. -/
def analyze_audio {Emb A : Type} (load : String → ℤ → Except String A)
    (get_duration : A → ℤ → ℚ) (extract : String → A → Emb)
    (predict : ClassifierConfig → Emb → Except String (List (List ℚ)))
    (configs : List ClassifierConfig) (audio_path : String)
    (st : InfState Emb) : Except String AudioAnalysisResult × InfState Emb :=
  match configs with
  | [] => (Except.error "No classifiers configured", st)
  | first :: _ =>
      let sample_rate := first.embedding_model.sample_rate
      let st1 := { st with loadLog := st.loadLog ++ [audio_path] }
      match load audio_path sample_rate with
      | Except.error e => (Except.error e, st1)
      | Except.ok audio =>
          let duration := get_duration audio sample_rate
          let r := run_classifiers extract predict audio audio_path configs st1
          let st3 := { r.2 with embCache := [] }
          (Except.ok { audio_path := audio_path,
                       audio_duration_seconds := duration,
                       sample_rate := sample_rate,
                       predictions := r.1 }, st3)

/-- Embedding of `analyze_batch`: process the paths strictly
sequentially, catching a whole-item failure and continuing with the next
path (the progress callback is presentation only and is not modelled). -/
def analyze_batch {Emb A : Type} (load : String → ℤ → Except String A)
    (get_duration : A → ℤ → ℚ) (extract : String → A → Emb)
    (predict : ClassifierConfig → Emb → Except String (List (List ℚ)))
    (configs : List ClassifierConfig) :
    List String → InfState Emb → List AudioAnalysisResult × InfState Emb
  | [], st => ([], st)
  | path :: rest, st =>
      match analyze_audio load get_duration extract predict configs path st with
      | (Except.ok res, st1) =>
          let r := analyze_batch load get_duration extract predict configs rest st1
          (res :: r.1, r.2)
      | (Except.error _, st1) =>
          analyze_batch load get_duration extract predict configs rest st1

/-! ### result_logger.py

`ResultLogger` accumulates per-item outcomes.  Its mutable state is the
ordered list of logged results, the set of classifier names seen (a
Python `set`, modelled as a duplicate-free insertion list), and the
failure counter.  `get_session_results` is a pure read producing a
`SessionResults` snapshot; `_format_result` is the JSON shaping of one
result, reusing `AudioResult` / `ModelEntry` (raw output carries no
bpm / phrase / bar keys, hence `none`). -/

/-- Mirror of the dataclass `SessionResults`. -/
structure SessionResults where
  session_timestamp : String
  input_directory : String
  output_directory : String
  total_files : ℕ
  successful_files : ℕ
  failed_files : ℕ
  classifiers_used : List String
  results : List AudioResult
deriving DecidableEq

/-- Mutable state of a `ResultLogger`. -/
structure ResultLoggerState where
  session_timestamp : String
  input_directory : String
  output_directory : String
  results : List AudioAnalysisResult
  classifiers_used : List String
  failed_count : ℕ
deriving DecidableEq

/-- A fresh `ResultLogger` (its constructor): no results, no classifiers
seen, zero failures. -/
def mk_result_logger (session_timestamp input_directory output_directory :
    String) : ResultLoggerState :=
  { session_timestamp := session_timestamp,
    input_directory := input_directory,
    output_directory := output_directory,
    results := [], classifiers_used := [], failed_count := 0 }

/-- Add each prediction's classifier name to the classifiers-used set
(the `for pred in result.predictions` loop of `log_result`). -/
def add_classifiers_used (s : List String) :
    List PredictionResult → List String
  | [] => s
  | p :: ps =>
      add_classifiers_used
        (if p.classifier_name ∈ s then s else s ++ [p.classifier_name]) ps

/-- Embedding of `log_result`: append the result (insertion order) and
record its classifier names. -/
def log_result (st : ResultLoggerState) (result : AudioAnalysisResult) :
    ResultLoggerState :=
  { st with results := st.results ++ [result],
            classifiers_used :=
              add_classifiers_used st.classifiers_used result.predictions }

/-- Embedding of `log_failure`: increment the failure counter; nothing
else is retained for the failed path (the path and message go only to
the textual log). -/
def log_failure (st : ResultLoggerState) (audio_path error : String) :
    ResultLoggerState :=
  { st with failed_count := st.failed_count + 1 }

/-- Embedding of the model dicts built inside `_format_result`. -/
def format_model (p : PredictionResult) : ModelEntry :=
  { model_name := p.classifier_name,
    embedding_model := p.embedding_model_name,
    embedding_model_path := p.embedding_model_path,
    classes := p.classes,
    num_segments := p.num_segments,
    segment_predictions := p.segment_predictions,
    aggregated_predictions := p.aggregated_predictions,
    bar_predictions := none,
    aggregated_bar_predictions := none }

/-- Embedding of `_format_result`: shape one analysis result for JSON
output (duration rounded to 3 digits). -/
def format_result (r : AudioAnalysisResult) : AudioResult :=
  { audio_file := r.audio_path,
    audio_duration_seconds := pyRoundTo 3 r.audio_duration_seconds,
    sample_rate := r.sample_rate,
    bpm := none,
    phrase_duration_seconds := none,
    models := r.predictions.map format_model }

/-- Embedding of `get_session_results`: a pure snapshot of the
accumulator (`sorted(...)` on the classifiers-used set). -/
def get_session_results (st : ResultLoggerState) : SessionResults :=
  { session_timestamp := st.session_timestamp,
    input_directory := st.input_directory,
    output_directory := st.output_directory,
    total_files := st.results.length + st.failed_count,
    successful_files := st.results.length,
    failed_files := st.failed_count,
    classifiers_used := List.insertionSort (fun a b => a ≤ b) st.classifiers_used,
    results := st.results.map format_result }

/-- An observable operation on the result aggregator: logging a success,
logging a failure, or taking a snapshot. -/
inductive LogOp where
  | result (r : AudioAnalysisResult)
  | failure (audio_path error : String)
  | snapshot
deriving DecidableEq

/-- Apply one aggregator operation to the logger state.  `snapshot`
computes `get_session_results`, a pure read that leaves the state
untouched. -/
def applyLogOp (st : ResultLoggerState) : LogOp → ResultLoggerState
  | LogOp.result r => log_result st r
  | LogOp.failure p e => log_failure st p e
  | LogOp.snapshot => st

/-- Run a sequence of aggregator operations from a state. -/
def runLog (st : ResultLoggerState) : List LogOp → ResultLoggerState
  | [] => st
  | op :: ops => runLog (applyLogOp st op) ops

/-- The records appended (in order) by a sequence of operations. -/
def appendedRecords : List LogOp → List AudioAnalysisResult
  | [] => []
  | LogOp.result r :: ops => r :: appendedRecords ops
  | _ :: ops => appendedRecords ops

/-- Number of `log_result` calls in a sequence of operations. -/
def countResults : List LogOp → ℕ
  | [] => 0
  | LogOp.result _ :: ops => countResults ops + 1
  | _ :: ops => countResults ops

/-- Number of `log_failure` calls in a sequence of operations. -/
def countFailures : List LogOp → ℕ
  | [] => 0
  | LogOp.failure _ _ :: ops => countFailures ops + 1
  | _ :: ops => countFailures ops

/-! ### Claim theorems -/

theorem one_sub_overlap : (1 : ℚ) - SEGMENT_OVERLAP = 1/2 := by
  rw [SEGMENT_OVERLAP]; norm_num

/-- C1: for every positive segment duration, the phrase-aggregation pass
computes `hop_duration = segment_duration * (1 - 0.5)` (the `≤ 0`
fallback cannot fire), `segments_per_phrase = 1` when the phrase fits in
one segment and `(phrase - segment) / hop + 1` otherwise, and the
resulting `segments_per_phrase` is always at least 1. -/
theorem C1_hop_and_segments_per_phrase (s p : ℚ) (hs : 0 < s) :
    hop_duration s = s * (1 - SEGMENT_OVERLAP) ∧
    (p ≤ s → segments_per_phrase p s = 1) ∧
    (s < p → segments_per_phrase p s = (p - s) / (s * (1 - SEGMENT_OVERLAP)) + 1) ∧
    1 ≤ segments_per_phrase p s := by
  have hpos : 0 < s * (1 - SEGMENT_OVERLAP) := by
    rw [one_sub_overlap]; positivity
  have hhop : hop_duration s = s * (1 - SEGMENT_OVERLAP) := by
    show (if s * (1 - SEGMENT_OVERLAP) ≤ 0 then s else s * (1 - SEGMENT_OVERLAP))
        = s * (1 - SEGMENT_OVERLAP)
    rw [if_neg (not_le.mpr hpos)]
  refine ⟨hhop, fun hle => ?_, fun hlt => ?_, ?_⟩
  · show (if p ≤ s then 1 else (p - s) / hop_duration s + 1) = 1
    rw [if_pos hle]
  · show (if p ≤ s then 1 else (p - s) / hop_duration s + 1)
        = (p - s) / (s * (1 - SEGMENT_OVERLAP)) + 1
    rw [if_neg (not_le.mpr hlt), hhop]
  · show 1 ≤ (if p ≤ s then 1 else (p - s) / hop_duration s + 1)
    by_cases hps : p ≤ s
    · rw [if_pos hps]
    · rw [if_neg hps, hhop]
      have hsub : 0 ≤ p - s := by
        have := lt_of_not_le hps
        linarith
      have : 0 ≤ (p - s) / (s * (1 - SEGMENT_OVERLAP)) :=
        div_nonneg hsub (le_of_lt hpos)
      linarith

/-- Witness for C1 at `segment_duration = 1`, `phrase_duration = 32`. -/
theorem C1_witness :
    (0 : ℚ) < 1 ∧
    (hop_duration 1 = 1 * (1 - SEGMENT_OVERLAP) ∧
     ((32 : ℚ) ≤ 1 → segments_per_phrase 32 1 = 1) ∧
     ((1 : ℚ) < 32 →
       segments_per_phrase 32 1 = (32 - 1) / (1 * (1 - SEGMENT_OVERLAP)) + 1) ∧
     1 ≤ segments_per_phrase 32 1) :=
  ⟨by norm_num, C1_hop_and_segments_per_phrase 1 32 (by norm_num)⟩

/-- C2: for every positive bpm, `calculate_phrase_duration bpm` equals
`16 * 4 * 60 / bpm` seconds exactly, and at bpm = 120 it is exactly 32
seconds. -/
theorem C2_phrase_duration (bpm : ℚ) (hbpm : 0 < bpm) :
    calculate_phrase_duration bpm = 16 * 4 * 60 / bpm ∧
    calculate_phrase_duration 120 = 32 := by
  constructor
  · rw [calculate_phrase_duration]; ring
  · rw [calculate_phrase_duration]; norm_num

/-- Witness for C2 at bpm = 120. -/
theorem C2_witness :
    (0 : ℚ) < 120 ∧
    (calculate_phrase_duration 120 = 16 * 4 * 60 / 120 ∧
     calculate_phrase_duration 120 = 32) :=
  ⟨by norm_num, C2_phrase_duration 120 (by norm_num)⟩

/-- C3: when the embedding model publishes a 2-D input shape the patch
size is its first dimension, for a 3-D shape its second dimension, and
the segment duration is `round(patch_size / 64)` seconds; any other rank
yields no segment duration; shape `[64, 128, 96]` gives 2 seconds; and
when the shape is unavailable the pass falls back to
`audio_duration / num_segments`. -/
theorem C3_segment_duration (shape_of : String → Option (List ℤ))
    (p2 p3 p0 : String) (a b c : ℤ) (shape0 : List ℤ) (dur : ℚ) (n : ℕ)
    (h2 : shape_of p2 = some [a, b]) (h3 : shape_of p3 = some [a, b, c])
    (h0 : shape_of p0 = some shape0)
    (hl2 : shape0.length ≠ 2) (hl3 : shape0.length ≠ 3) :
    get_embedding_model_segment_duration shape_of p2
      = some ((pyRound ((a : ℚ) / 64) : ℤ) : ℚ) ∧
    get_embedding_model_segment_duration shape_of p3
      = some ((pyRound ((b : ℚ) / 64) : ℤ) : ℚ) ∧
    get_embedding_model_segment_duration shape_of p0 = none ∧
    get_embedding_model_segment_duration (fun _ => some [64, 128, 96]) p3
      = some 2 ∧
    segment_duration_or_fallback none dur n = dur / (n : ℚ) := by
  refine ⟨?_, ?_, ?_, ?_, rfl⟩
  · rw [get_embedding_model_segment_duration, h2]
    simp [patch_size_of_shape, PATCHES_PER_SECOND]
  · rw [get_embedding_model_segment_duration, h3]
    simp [patch_size_of_shape, PATCHES_PER_SECOND]
  · rw [get_embedding_model_segment_duration, h0]
    simp [patch_size_of_shape, hl2, hl3]
  · rw [get_embedding_model_segment_duration]
    simp only [patch_size_of_shape, PATCHES_PER_SECOND]
    norm_num
    have h2q : (2 : ℚ) = ((2 : ℤ) : ℚ) := by norm_num
    rw [h2q, pyRound_intCast]

/-- Witness for C3: a 2-D shape, a 3-D shape and a 1-D shape published
by a concrete shape table. -/
theorem C3_witness :
    (fun s => if s = "m2" then some [(64 : ℤ), 128]
              else if s = "m3" then some [64, 128, 96]
              else some [5]) "m2" = some [(64 : ℤ), 128] ∧
    (fun s => if s = "m2" then some [(64 : ℤ), 128]
              else if s = "m3" then some [64, 128, 96]
              else some [5]) "m3" = some [(64 : ℤ), 128, 96] ∧
    (fun s => if s = "m2" then some [(64 : ℤ), 128]
              else if s = "m3" then some [64, 128, 96]
              else some [5]) "m0" = some [(5 : ℤ)] ∧
    ([(5 : ℤ)].length ≠ 2 ∧ [(5 : ℤ)].length ≠ 3) ∧
    (get_embedding_model_segment_duration
        (fun s => if s = "m2" then some [(64 : ℤ), 128]
                  else if s = "m3" then some [64, 128, 96]
                  else some [5]) "m2"
      = some ((pyRound (((64 : ℤ) : ℚ) / 64) : ℤ) : ℚ) ∧
     get_embedding_model_segment_duration
        (fun s => if s = "m2" then some [(64 : ℤ), 128]
                  else if s = "m3" then some [64, 128, 96]
                  else some [5]) "m3"
      = some ((pyRound (((128 : ℤ) : ℚ) / 64) : ℤ) : ℚ) ∧
     get_embedding_model_segment_duration
        (fun s => if s = "m2" then some [(64 : ℤ), 128]
                  else if s = "m3" then some [64, 128, 96]
                  else some [5]) "m0" = none ∧
     get_embedding_model_segment_duration (fun _ => some [64, 128, 96]) "m3"
      = some 2 ∧
     segment_duration_or_fallback none (100 : ℚ) 50 = (100 : ℚ) / ((50 : ℕ) : ℚ)) := by
  refine ⟨by decide, by decide, by decide, by decide, ?_⟩
  exact C3_segment_duration
    (fun s => if s = "m2" then some [(64 : ℤ), 128]
              else if s = "m3" then some [64, 128, 96]
              else some [5])
    "m2" "m3" "m0" 64 128 96 [5] 100 50
    (by decide) (by decide) (by decide) (by decide) (by decide)

/-! ### Chunking lemmas for C4 -/

theorem chunksOfAux_nil {α : Type} (k fuel : ℕ) :
    chunksOfAux (α := α) k fuel [] = [] := by
  cases fuel <;> rfl

theorem chunksOfAux_flatten {α : Type} (k : ℕ) (hk : 0 < k) :
    ∀ (fuel : ℕ) (l : List α), l.length ≤ fuel →
      (chunksOfAux k fuel l).flatten = l := by
  intro fuel
  induction fuel with
  | zero =>
      intro l hl
      cases l with
      | nil => rfl
      | cons x xs => simp at hl
  | succ n ih =>
      intro l hl
      cases l with
      | nil => rfl
      | cons x xs =>
          have hdrop : ((x :: xs).drop k).length ≤ n := by
            rw [List.length_drop]
            simp only [List.length_cons] at hl ⊢
            omega
          show ((x :: xs).take k :: chunksOfAux k n ((x :: xs).drop k)).flatten
              = x :: xs
          rw [List.flatten_cons, ih _ hdrop, List.take_append_drop]

theorem chunksOfAux_mem {α : Type} (k : ℕ) (hk : 0 < k) :
    ∀ (fuel : ℕ) (l : List α) (ch : List α),
      ch ∈ chunksOfAux k fuel l → ch ≠ [] ∧ ch.length ≤ k := by
  intro fuel
  induction fuel with
  | zero =>
      intro l ch hch
      cases l with
      | nil => simp [chunksOfAux] at hch
      | cons x xs => simp [chunksOfAux] at hch
  | succ n ih =>
      intro l ch hch
      cases l with
      | nil => simp [chunksOfAux] at hch
      | cons x xs =>
          rw [show chunksOfAux k (n + 1) (x :: xs)
              = (x :: xs).take k :: chunksOfAux k n ((x :: xs).drop k) from rfl]
            at hch
          rcases List.mem_cons.mp hch with hc | hc
          · subst hc
            constructor
            · intro hnil
              rcases List.take_eq_nil_iff.mp hnil with h1 | h1
              · omega
              · exact List.cons_ne_nil x xs h1
            · rw [List.length_take]
              exact min_le_left _ _
          · exact ih _ _ hc

theorem chunksOfAux_dropLast {α : Type} (k : ℕ) (hk : 0 < k) :
    ∀ (fuel : ℕ) (l : List α), l.length ≤ fuel →
      ∀ ch ∈ (chunksOfAux k fuel l).dropLast, ch.length = k := by
  intro fuel
  induction fuel with
  | zero =>
      intro l hl ch hch
      cases l with
      | nil => simp [chunksOfAux] at hch
      | cons x xs => simp at hl
  | succ n ih =>
      intro l hl ch hch
      cases l with
      | nil => simp [chunksOfAux] at hch
      | cons x xs =>
          rw [show chunksOfAux k (n + 1) (x :: xs)
              = (x :: xs).take k :: chunksOfAux k n ((x :: xs).drop k) from rfl]
            at hch
          by_cases hdk : (x :: xs).drop k = []
          · rw [hdk, chunksOfAux_nil] at hch
            simp at hch
          · have hdrop : ((x :: xs).drop k).length ≤ n := by
              rw [List.length_drop]
              simp only [List.length_cons] at hl ⊢
              omega
            have hklen : k < (x :: xs).length := by
              by_contra hcon
              exact hdk (List.drop_eq_nil_of_le (by omega))
            have hne : chunksOfAux k n ((x :: xs).drop k) ≠ [] := by
              intro hnil
              have := chunksOfAux_flatten k hk n _ hdrop
              rw [hnil] at this
              exact hdk this.symm
            rcases List.exists_cons_of_ne_nil hne with ⟨c, cs, hcs⟩
            rw [hcs] at hch
            rw [List.dropLast_cons₂] at hch
            rcases List.mem_cons.mp hch with hc | hc
            · subst hc
              rw [List.length_take]
              omega
            · rw [← hcs] at hc
              exact ih _ hdrop ch hc

theorem chunksOfAux_length {α : Type} (k : ℕ) (hk : 0 < k) :
    ∀ (fuel : ℕ) (l : List α), l.length ≤ fuel →
      (chunksOfAux k fuel l).length = (l.length + k - 1) / k := by
  intro fuel
  induction fuel with
  | zero =>
      intro l hl
      cases l with
      | nil => simp [chunksOfAux, Nat.div_eq_of_lt (show k - 1 < k by omega)]
      | cons x xs => simp at hl
  | succ n ih =>
      intro l hl
      cases l with
      | nil => simp [chunksOfAux, Nat.div_eq_of_lt (show k - 1 < k by omega)]
      | cons x xs =>
          have hlen1 : 1 ≤ (x :: xs).length := by simp
          have hsplit : (x :: xs).length + k - 1 = ((x :: xs).length - 1) + k := by
            omega
          rw [show chunksOfAux k (n + 1) (x :: xs)
              = (x :: xs).take k :: chunksOfAux k n ((x :: xs).drop k) from rfl]
          rw [List.length_cons, hsplit, Nat.add_div_right _ hk]
          have hdrop : ((x :: xs).drop k).length ≤ n := by
            rw [List.length_drop]
            simp only [List.length_cons] at hl ⊢
            omega
          rw [ih _ hdrop, List.length_drop]
          by_cases hlk : (x :: xs).length ≤ k
          · have h1 : (x :: xs).length - k = 0 := by omega
            rw [h1]
            have h2 : (0 + k - 1) / k = 0 :=
              Nat.div_eq_of_lt (by omega)
            have h3 : ((x :: xs).length - 1) / k = 0 :=
              Nat.div_eq_of_lt (by omega)
            omega
          · push_neg at hlk
            have h1 : (x :: xs).length - k + k - 1
                = ((x :: xs).length - k - 1) + k := by omega
            have h2 : (x :: xs).length - 1
                = ((x :: xs).length - k - 1) + k := by omega
            rw [h1, h2, Nat.add_div_right _ hk]

theorem chunk_size_pos (spp : ℚ) : 0 < chunk_size spp := by
  rw [chunk_size]
  have h1 : (1 : ℤ) ≤ max 1 (pyRound spp) := le_max_left _ _
  have h2 := Int.toNat_le_toNat h1
  simp only [Int.toNat_one] at h2
  omega

theorem chunk_size_cast (spp : ℚ) :
    ((chunk_size spp : ℕ) : ℤ) = max 1 (pyRound spp) := by
  rw [chunk_size]
  exact Int.toNat_of_nonneg
    (le_trans zero_le_one (le_max_left _ _))

/-- Entrywise description of `vecMean` on a rectangular matrix: the j-th
entry of the mean vector is the mean of the j-th column. -/
theorem vecMean_eq (w : ℕ) (rows : List (List ℚ)) (hne : rows ≠ [])
    (hw : ∀ row ∈ rows, row.length = w) :
    vecMean rows
      = (List.range w).map
          (fun j => (rows.map (fun r => r.getD j 0)).sum / (rows.length : ℚ)) := by
  have hsum : ∀ rs : List (List ℚ), (∀ row ∈ rs, row.length = w) →
      vecSum w rs
        = (List.range w).map (fun j => (rs.map (fun r => r.getD j 0)).sum) := by
    intro rs
    induction rs with
    | nil =>
        intro _
        apply List.ext_getElem
        · simp [vecSum]
        · intro i h1 h2
          simp [vecSum]
    | cons r rest ih =>
        intro hws
        have hr : r.length = w := hws r (by simp)
        have hrest : ∀ row ∈ rest, row.length = w := by
          intro row hrow
          exact hws row (by simp [hrow])
        show List.zipWith (· + ·) r (vecSum w rest) = _
        rw [ih hrest]
        apply List.ext_getElem
        · simp [hr]
        · intro i h1 h2
          have hiw : i < w := by
            simpa [hr] using h2
          rw [List.getElem_zipWith]
          rw [List.getElem_map, List.getElem_map, List.getElem_range]
          simp only [List.map_cons, List.sum_cons]
          rw [List.getD_eq_getElem r 0 (by omega)]
  cases rows with
  | nil => exact absurd rfl hne
  | cons r rest =>
      have hr : r.length = w := hw r (by simp)
      show (vecSum r.length (r :: rest)).map
          (fun x => x / ((r :: rest).length : ℚ)) = _
      rw [hr, hsum (r :: rest) hw, List.map_map]
      rfl

/-- C4: `chunk_predictions` splits a non-empty prediction sequence into
consecutive chunks of `max(1, round(segments_per_phrase))` rows whose
concatenation reproduces the input, every chunk except possibly the last
being full; `compute_bar_predictions` takes the per-class mean of each
chunk and the unweighted per-class mean of those means (`vecMean`, the
column mean); the number of chunks is `⌈len / chunkSize⌉`; and 189
segments with `segments_per_phrase = 63` give exactly 3 bar-prediction
rows. -/
theorem C4_chunk_and_bar_predictions (preds : List (List ℚ)) (spp : ℚ)
    (classes : List String) (h : preds ≠ []) :
    ((chunk_size spp : ℤ) = max 1 (pyRound spp)) ∧
    (chunk_predictions preds spp).flatten = preds ∧
    (∀ ch ∈ chunk_predictions preds spp, ch ≠ [] ∧ ch.length ≤ chunk_size spp) ∧
    (∀ ch ∈ (chunk_predictions preds spp).dropLast,
        ch.length = chunk_size spp) ∧
    (chunk_predictions preds spp).length
      = (preds.length + chunk_size spp - 1) / chunk_size spp ∧
    (compute_bar_predictions (chunk_predictions preds spp) classes).1
      = (chunk_predictions preds spp).map vecMean ∧
    (compute_bar_predictions (chunk_predictions preds spp) classes).2
      = classes.zip (vecMean ((chunk_predictions preds spp).map vecMean)) ∧
    (∀ (w : ℕ) (rows : List (List ℚ)), rows ≠ [] →
        (∀ row ∈ rows, row.length = w) →
        vecMean rows
          = (List.range w).map
              (fun j => (rows.map (fun r => r.getD j 0)).sum / (rows.length : ℚ))) ∧
    (chunk_predictions (List.replicate 189 [(1 : ℚ)]) 63).length = 3 := by
  have hk := chunk_size_pos spp
  have hcp : chunk_predictions preds spp
      = chunksOfAux (chunk_size spp) preds.length preds := by
    rw [chunk_predictions, if_neg h]
  have hflat : (chunk_predictions preds spp).flatten = preds := by
    rw [hcp]
    exact chunksOfAux_flatten _ hk _ _ le_rfl
  have hne : chunk_predictions preds spp ≠ [] := by
    intro hnil
    rw [hnil] at hflat
    exact h hflat.symm
  have hbar : compute_bar_predictions (chunk_predictions preds spp) classes
      = ((chunk_predictions preds spp).map vecMean,
         classes.zip (vecMean ((chunk_predictions preds spp).map vecMean))) := by
    rw [compute_bar_predictions, if_neg hne]
  have h63 : chunk_size (63 : ℚ) = 63 := by
    have : pyRound (63 : ℚ) = 63 := by
      rw [show (63 : ℚ) = ((63 : ℤ) : ℚ) by norm_num, pyRound_intCast]
    rw [chunk_size, this]
    rfl
  refine ⟨chunk_size_cast spp, hflat, ?_, ?_, ?_, ?_, ?_, ?_, ?_⟩
  · intro ch hch
    rw [hcp] at hch
    exact chunksOfAux_mem _ hk _ _ _ hch
  · intro ch hch
    rw [hcp] at hch
    exact chunksOfAux_dropLast _ hk _ _ le_rfl ch hch
  · rw [hcp]
    exact chunksOfAux_length _ hk _ _ le_rfl
  · rw [hbar]
  · rw [hbar]
  · exact vecMean_eq
  · rw [chunk_predictions,
        if_neg (List.ne_nil_of_length_pos
          (by rw [List.length_replicate]; norm_num)), h63]
    rw [chunksOfAux_length 63 (by omega) _ _ le_rfl, List.length_replicate]

/-- Witness for C4 at the three-segment input `[[1], [2], [3]]` with
`segments_per_phrase = 2`. -/
theorem C4_witness :
    ([[(1 : ℚ)], [2], [3]] : List (List ℚ)) ≠ [] ∧
    (((chunk_size 2 : ℤ) = max 1 (pyRound 2)) ∧
     (chunk_predictions [[(1 : ℚ)], [2], [3]] 2).flatten = [[(1 : ℚ)], [2], [3]] ∧
     (∀ ch ∈ chunk_predictions [[(1 : ℚ)], [2], [3]] 2,
        ch ≠ [] ∧ ch.length ≤ chunk_size 2) ∧
     (∀ ch ∈ (chunk_predictions [[(1 : ℚ)], [2], [3]] 2).dropLast,
        ch.length = chunk_size 2) ∧
     (chunk_predictions [[(1 : ℚ)], [2], [3]] 2).length
       = (([[(1 : ℚ)], [2], [3]] : List (List ℚ)).length + chunk_size 2 - 1)
           / chunk_size 2 ∧
     (compute_bar_predictions (chunk_predictions [[(1 : ℚ)], [2], [3]] 2) ["a"]).1
       = (chunk_predictions [[(1 : ℚ)], [2], [3]] 2).map vecMean ∧
     (compute_bar_predictions (chunk_predictions [[(1 : ℚ)], [2], [3]] 2) ["a"]).2
       = ["a"].zip (vecMean ((chunk_predictions [[(1 : ℚ)], [2], [3]] 2).map vecMean)) ∧
     (∀ (w : ℕ) (rows : List (List ℚ)), rows ≠ [] →
        (∀ row ∈ rows, row.length = w) →
        vecMean rows
          = (List.range w).map
              (fun j => (rows.map (fun r => r.getD j 0)).sum / (rows.length : ℚ))) ∧
     (chunk_predictions (List.replicate 189 [(1 : ℚ)]) 63).length = 3) :=
  ⟨by simp, C4_chunk_and_bar_predictions [[(1 : ℚ)], [2], [3]] 2 ["a"] (by simp)⟩

/-! ### C5: discovery skips bad descriptors and keeps the rest -/

/-- C5: discovery returns exactly the descriptors that resolve
successfully, in order; a descriptor whose outputs lack a
`"predictions"`-purpose node resolves to `none` (is skipped), as does
one whose `.pb` artifact file is missing; and a directory holding such a
bad descriptor next to a well-formed one still yields the well-formed
classifier. -/
theorem C5_discover_classifiers
    (lookup : String → String → Option EmbeddingModelConfig)
    (dirs : List (List ClassifierDescriptor))
    (dbad dpb dgood : ClassifierDescriptor) (cfg : ClassifierConfig)
    (hbad : strTruthy (find_output_node dbad.outputs "predictions") = false)
    (hpb : dpb.pb_exists = false)
    (hgood : load_classifier_config lookup dgood = some cfg) :
    discover_classifiers lookup dirs
      = dirs.flatten.filterMap (load_classifier_config lookup) ∧
    load_classifier_config lookup dbad = none ∧
    load_classifier_config lookup dpb = none ∧
    discover_classifiers lookup [[dbad, dgood]] = [cfg] := by
  have hload_bad : load_classifier_config lookup dbad = none := by
    rw [load_classifier_config]
    split_ifs <;> simp_all
  have hload_pb : load_classifier_config lookup dpb = none := by
    rw [load_classifier_config]
    cases hlk : lookup (dpb.embedding_algorithm.getD "")
        (dpb.embedding_model_name.getD "") with
    | none => split_ifs <;> simp [hlk]
    | some emb => split_ifs <;> simp_all [hlk]
  refine ⟨?_, hload_bad, hload_pb, ?_⟩
  · induction dirs with
    | nil => rfl
    | cons ds rest ih =>
        rw [show discover_classifiers lookup (ds :: rest)
            = ds.filterMap (load_classifier_config lookup)
              ++ discover_classifiers lookup rest from rfl]
        rw [ih, List.flatten_cons, List.filterMap_append]
  · rw [show discover_classifiers lookup [[dbad, dgood]]
        = [dbad, dgood].filterMap (load_classifier_config lookup)
          ++ discover_classifiers lookup [] from rfl]
    rw [show discover_classifiers lookup ([] : List (List ClassifierDescriptor))
        = [] from rfl]
    rw [List.filterMap_cons, hload_bad, List.filterMap_cons, hgood]
    rfl

/-- A concrete resolved embedding-model config, used by the C5 witness. -/
def emb_sample : EmbeddingModelConfig :=
  { name := "msd-musicnn-1",
    algorithm := "TensorflowPredictMusiCNN",
    model_path := "feature_extractors/musicnn/msd-musicnn-1.pb",
    sample_rate := 16000,
    output_node := "model/dense/BiasAdd" }

/-- A well-formed classifier descriptor, used by the C5 witness. -/
def descriptor_good : ClassifierDescriptor :=
  { stem := "genre_rosamerica",
    json_exists := true,
    json_parses := true,
    name := some "genre_rosamerica",
    version := some "2",
    description := some "genre classifier",
    classes := ["cla", "dan", "hip"],
    algorithm := some "TensorflowPredict2D",
    sample_rate := some 16000,
    input_names := [some "model/Placeholder"],
    outputs := [{ name := some "model/Sigmoid",
                  output_purpose := some "predictions" }],
    embedding_algorithm := some "TensorflowPredictMusiCNN",
    embedding_model_name := some "msd-musicnn-1",
    author := some "MTG",
    email := none, release_date := none, framework := none,
    framework_version := none, dataset := none,
    pb_path := "classification_heads/genre_rosamerica/genre_rosamerica.pb",
    pb_exists := true }

/-- The same descriptor but with no `"predictions"`-purpose output, used
by the C5 witness. -/
def descriptor_bad : ClassifierDescriptor :=
  { descriptor_good with
    outputs := [{ name := some "model/Sigmoid",
                  output_purpose := some "embeddings" }] }

/-- The same descriptor but with a missing `.pb` artifact, used by the
C5 witness. -/
def descriptor_nopb : ClassifierDescriptor :=
  { descriptor_good with pb_exists := false }

/-- The classifier config that `descriptor_good` resolves to, used by
the C5 witness. -/
def config_good : ClassifierConfig :=
  { name := "genre_rosamerica",
    version := "2",
    description := "genre classifier",
    algorithm := "TensorflowPredict2D",
    model_path := "classification_heads/genre_rosamerica/genre_rosamerica.pb",
    sample_rate := 16000,
    classes := ["cla", "dan", "hip"],
    input_node := "model/Placeholder",
    output_node := "model/Sigmoid",
    embedding_model := emb_sample,
    metadata := [("author", some "MTG"), ("email", none),
                 ("release_date", none), ("framework", none),
                 ("framework_version", none), ("dataset", none)] }

/-- Witness for C5 on the concrete descriptors above. -/
theorem C5_witness :
    strTruthy (find_output_node descriptor_bad.outputs "predictions") = false ∧
    descriptor_nopb.pb_exists = false ∧
    load_classifier_config (fun _ _ => some emb_sample) descriptor_good
      = some config_good ∧
    (discover_classifiers (fun _ _ => some emb_sample)
        [[descriptor_bad, descriptor_good], [descriptor_nopb]]
      = [[descriptor_bad, descriptor_good],
         [descriptor_nopb]].flatten.filterMap
          (load_classifier_config (fun _ _ => some emb_sample)) ∧
     load_classifier_config (fun _ _ => some emb_sample) descriptor_bad = none ∧
     load_classifier_config (fun _ _ => some emb_sample) descriptor_nopb = none ∧
     discover_classifiers (fun _ _ => some emb_sample)
        [[descriptor_bad, descriptor_good]] = [config_good]) :=
  ⟨by decide, by decide, by decide,
   C5_discover_classifiers (fun _ _ => some emb_sample)
     [[descriptor_bad, descriptor_good], [descriptor_nopb]]
     descriptor_bad descriptor_nopb descriptor_good config_good
     (by decide) (by decide) (by decide)⟩

/-! ### C8: phrase-pass skip and frame conditions -/

/-- C8: a model entry with zero segments is passed through untouched (no
bar-prediction keys are added and no summary entry is produced); when
the source audio file cannot be located the whole result dictionary is
returned unchanged — no bpm or phrase keys, every model entry and every
raw prediction field keeps its prior value — with a `none` summary; and
when the audio file is present the item never fails (a summary is always
produced). -/
theorem C8_skip_zero_segments_and_missing_audio (est_bpm : ℚ)
    (shape_of : String → Option (List ℤ)) (r : AudioResult)
    (m : ModelEntry) (audio_duration phrase_duration : ℚ)
    (hm : m.num_segments = 0) :
    postprocess_audio_result false est_bpm shape_of r = (r, none) ∧
    postprocess_model_entry shape_of audio_duration phrase_duration m
      = (m, none) ∧
    (postprocess_audio_result true est_bpm shape_of r).2.isSome = true := by
  refine ⟨?_, ?_, ?_⟩
  · rw [postprocess_audio_result]
    simp
  · rw [postprocess_model_entry]
    rw [if_pos (Or.inl hm)]
  · rw [postprocess_audio_result]
    simp

/-- Witness for C8: a zero-segment model entry inside a small result. -/
theorem C8_witness :
    ({ model_name := "mood_happy", embedding_model := "msd-musicnn-1",
       embedding_model_path := "fe/musicnn/msd-musicnn-1.pb",
       classes := ["happy", "non_happy"], num_segments := 0,
       segment_predictions := [], aggregated_predictions := [],
       bar_predictions := none,
       aggregated_bar_predictions := none } : ModelEntry).num_segments = 0 ∧
    (postprocess_audio_result false 120
        (fun _ => none)
        { audio_file := "a.mp3", audio_duration_seconds := 100,
          sample_rate := 16000, bpm := none,
          phrase_duration_seconds := none, models := [] }
      = ({ audio_file := "a.mp3", audio_duration_seconds := 100,
           sample_rate := 16000, bpm := none,
           phrase_duration_seconds := none, models := [] }, none) ∧
     postprocess_model_entry (fun _ => none) 100 32
        { model_name := "mood_happy", embedding_model := "msd-musicnn-1",
          embedding_model_path := "fe/musicnn/msd-musicnn-1.pb",
          classes := ["happy", "non_happy"], num_segments := 0,
          segment_predictions := [], aggregated_predictions := [],
          bar_predictions := none, aggregated_bar_predictions := none }
      = ({ model_name := "mood_happy", embedding_model := "msd-musicnn-1",
           embedding_model_path := "fe/musicnn/msd-musicnn-1.pb",
           classes := ["happy", "non_happy"], num_segments := 0,
           segment_predictions := [], aggregated_predictions := [],
           bar_predictions := none, aggregated_bar_predictions := none }, none) ∧
     (postprocess_audio_result true 120 (fun _ => none)
        { audio_file := "a.mp3", audio_duration_seconds := 100,
          sample_rate := 16000, bpm := none,
          phrase_duration_seconds := none, models := [] }).2.isSome = true) :=
  ⟨rfl, C8_skip_zero_segments_and_missing_audio 120 (fun _ => none)
     { audio_file := "a.mp3", audio_duration_seconds := 100,
       sample_rate := 16000, bpm := none,
       phrase_duration_seconds := none, models := [] }
     { model_name := "mood_happy", embedding_model := "msd-musicnn-1",
       embedding_model_path := "fe/musicnn/msd-musicnn-1.pb",
       classes := ["happy", "non_happy"], num_segments := 0,
       segment_predictions := [], aggregated_predictions := [],
       bar_predictions := none, aggregated_bar_predictions := none }
     100 32 rfl⟩

/-! ### C9: result aggregator invariants -/

theorem add_classifiers_used_mem (ps : List PredictionResult) :
    ∀ (acc : List String) (s : String),
      s ∈ add_classifiers_used acc ps
        ↔ s ∈ acc ∨ ∃ p ∈ ps, p.classifier_name = s := by
  induction ps with
  | nil => intro acc s; simp [add_classifiers_used]
  | cons p ps ih =>
      intro acc s
      rw [show add_classifiers_used acc (p :: ps)
          = add_classifiers_used
              (if p.classifier_name ∈ acc then acc
               else acc ++ [p.classifier_name]) ps from rfl]
      rw [ih]
      by_cases hmem : p.classifier_name ∈ acc
      · rw [if_pos hmem]
        simp only [List.mem_cons]
        constructor
        · rintro (hs | ⟨q, hq, hqs⟩)
          · exact Or.inl hs
          · exact Or.inr ⟨q, Or.inr hq, hqs⟩
        · rintro (hs | ⟨q, hq | hq, hqs⟩)
          · exact Or.inl hs
          · subst hq
            exact Or.inl (hqs ▸ hmem)
          · exact Or.inr ⟨q, hq, hqs⟩
      · rw [if_neg hmem]
        simp only [List.mem_append, List.mem_cons, List.not_mem_nil, or_false]
        constructor
        · rintro ((hs | hs) | ⟨q, hq, hqs⟩)
          · exact Or.inl hs
          · exact Or.inr ⟨p, Or.inl rfl, hs.symm⟩
          · exact Or.inr ⟨q, Or.inr hq, hqs⟩
        · rintro (hs | ⟨q, hq | hq, hqs⟩)
          · exact Or.inl (Or.inl hs)
          · subst hq
            exact Or.inl (Or.inr hqs.symm)
          · exact Or.inr ⟨q, hq, hqs⟩

theorem appendedRecords_length (ops : List LogOp) :
    (appendedRecords ops).length = countResults ops := by
  induction ops with
  | nil => rfl
  | cons op ops ih =>
      cases op with
      | result r => simp [appendedRecords, countResults, ih]
      | failure p e => simp [appendedRecords, countResults, ih]
      | snapshot => simp [appendedRecords, countResults, ih]

theorem runLog_state (ops : List LogOp) :
    ∀ st : ResultLoggerState,
      (runLog st ops).results = st.results ++ appendedRecords ops ∧
      (runLog st ops).failed_count = st.failed_count + countFailures ops ∧
      ∀ s : String,
        s ∈ (runLog st ops).classifiers_used
          ↔ s ∈ st.classifiers_used ∨
            ∃ r ∈ appendedRecords ops, ∃ p ∈ r.predictions,
              p.classifier_name = s := by
  induction ops with
  | nil =>
      intro st
      refine ⟨by simp [runLog, appendedRecords], by simp [runLog, countFailures], ?_⟩
      intro s
      simp [runLog, appendedRecords]
  | cons op ops ih =>
      intro st
      cases op with
      | result r =>
          have h := ih (log_result st r)
          refine ⟨?_, ?_, ?_⟩
          · rw [show runLog st (LogOp.result r :: ops)
                = runLog (log_result st r) ops from rfl, h.1]
            simp [log_result, appendedRecords]
          · rw [show runLog st (LogOp.result r :: ops)
                = runLog (log_result st r) ops from rfl, h.2.1]
            simp [log_result, countFailures]
          · intro s
            rw [show runLog st (LogOp.result r :: ops)
                = runLog (log_result st r) ops from rfl, h.2.2 s]
            rw [show (log_result st r).classifiers_used
                = add_classifiers_used st.classifiers_used r.predictions from rfl]
            rw [add_classifiers_used_mem]
            simp only [appendedRecords, List.mem_cons]
            constructor
            · rintro ((hs | ⟨p, hp, hps⟩) | ⟨rr, hrr, p, hp, hps⟩)
              · exact Or.inl hs
              · exact Or.inr ⟨r, Or.inl rfl, p, hp, hps⟩
              · exact Or.inr ⟨rr, Or.inr hrr, p, hp, hps⟩
            · rintro (hs | ⟨rr, hrr | hrr, p, hp, hps⟩)
              · exact Or.inl (Or.inl hs)
              · subst hrr
                exact Or.inl (Or.inr ⟨p, hp, hps⟩)
              · exact Or.inr ⟨rr, hrr, p, hp, hps⟩
      | failure pa er =>
          have h := ih (log_failure st pa er)
          refine ⟨?_, ?_, ?_⟩
          · rw [show runLog st (LogOp.failure pa er :: ops)
                = runLog (log_failure st pa er) ops from rfl, h.1]
            rfl
          · rw [show runLog st (LogOp.failure pa er :: ops)
                = runLog (log_failure st pa er) ops from rfl, h.2.1]
            simp [log_failure, countFailures]
            omega
          · intro s
            rw [show runLog st (LogOp.failure pa er :: ops)
                = runLog (log_failure st pa er) ops from rfl, h.2.2 s]
            rfl
      | snapshot =>
          have h := ih st
          exact ⟨h.1, h.2.1, h.2.2⟩

/-- C9: after any sequence of append / append-failure operations, a
snapshot satisfies `total = successful + failed`, `successful` = number
of appended records, `failed` = number of failure calls; the snapshot's
results are the appended records, formatted, in insertion order; its
classifiers-used set holds exactly the classifier names occurring in
appended records' predictions; taking a snapshot changes no aggregator
state; and a failure call changes only the failure counter. -/
theorem C9_result_logger_invariants (ts ind outd : String) (ops : List LogOp)
    (st : ResultLoggerState) (pa er : String) :
    (get_session_results (runLog (mk_result_logger ts ind outd) ops)).total_files
      = (get_session_results (runLog (mk_result_logger ts ind outd) ops)).successful_files
        + (get_session_results (runLog (mk_result_logger ts ind outd) ops)).failed_files ∧
    (get_session_results (runLog (mk_result_logger ts ind outd) ops)).successful_files
      = countResults ops ∧
    (get_session_results (runLog (mk_result_logger ts ind outd) ops)).failed_files
      = countFailures ops ∧
    (get_session_results (runLog (mk_result_logger ts ind outd) ops)).results
      = (appendedRecords ops).map format_result ∧
    (∀ s : String,
      s ∈ (get_session_results
            (runLog (mk_result_logger ts ind outd) ops)).classifiers_used
        ↔ ∃ r ∈ appendedRecords ops, ∃ p ∈ r.predictions,
            p.classifier_name = s) ∧
    applyLogOp st LogOp.snapshot = st ∧
    log_failure st pa er = { st with failed_count := st.failed_count + 1 } := by
  have h := runLog_state ops (mk_result_logger ts ind outd)
  have hres : (runLog (mk_result_logger ts ind outd) ops).results
      = appendedRecords ops := by
    rw [h.1]
    rfl
  have hfail : (runLog (mk_result_logger ts ind outd) ops).failed_count
      = countFailures ops := by
    rw [h.2.1]
    simp [mk_result_logger]
  refine ⟨rfl, ?_, ?_, ?_, ?_, rfl, rfl⟩
  · rw [show (get_session_results (runLog (mk_result_logger ts ind outd) ops)).successful_files
        = (runLog (mk_result_logger ts ind outd) ops).results.length from rfl]
    rw [hres, appendedRecords_length]
  · exact hfail
  · rw [show (get_session_results (runLog (mk_result_logger ts ind outd) ops)).results
        = (runLog (mk_result_logger ts ind outd) ops).results.map format_result
        from rfl]
    rw [hres]
  · intro s
    rw [show (get_session_results
          (runLog (mk_result_logger ts ind outd) ops)).classifiers_used
        = List.insertionSort (fun a b => a ≤ b)
            (runLog (mk_result_logger ts ind outd) ops).classifiers_used
        from rfl]
    rw [(List.perm_insertionSort (fun a b => a ≤ b)
          (runLog (mk_result_logger ts ind outd) ops).classifiers_used).mem_iff]
    rw [h.2.2 s]
    simp [mk_result_logger]

/-! ### Inference-pipeline lemmas for C6, C7 and C10 -/

theorem cacheLookup_none_iff {Emb : Type} :
    ∀ (cache : List ((String × String) × Emb)) (q : String × String),
      cacheLookup cache q = none ↔ q ∉ cache.map Prod.fst := by
  intro cache q
  induction cache with
  | nil => simp [cacheLookup]
  | cons e rest ih =>
      obtain ⟨k, v⟩ := e
      rw [show cacheLookup ((k, v) :: rest) q
          = if q = k then some v else cacheLookup rest q from rfl]
      by_cases hqk : q = k
      · simp [hqk]
      · simp [hqk, ih]

theorem cacheLookup_mem {Emb : Type} :
    ∀ (cache : List ((String × String) × Emb)) (q : String × String) (v : Emb),
      cacheLookup cache q = some v → (q, v) ∈ cache := by
  intro cache q v
  induction cache with
  | nil => intro h; simp [cacheLookup] at h
  | cons e rest ih =>
      obtain ⟨k, w⟩ := e
      intro h
      rw [show cacheLookup ((k, w) :: rest) q
          = if q = k then some w else cacheLookup rest q from rfl] at h
      by_cases hqk : q = k
      · rw [if_pos hqk] at h
        injection h with h
        subst hqk
        subst h
        exact List.mem_cons_self _ _
      · rw [if_neg hqk] at h
        exact List.mem_cons_of_mem _ (ih h)

theorem get_embedding_extractor_fields {Emb : Type} (name : String)
    (st : InfState Emb) :
    (get_embedding_extractor name st).embCache = st.embCache ∧
    (get_embedding_extractor name st).extractLog = st.extractLog ∧
    (get_embedding_extractor name st).loadLog = st.loadLog ∧
    ∀ n ∈ st.extractors, n ∈ (get_embedding_extractor name st).extractors := by
  rw [get_embedding_extractor]
  by_cases h : name ∈ st.extractors
  · rw [if_pos h]
    exact ⟨rfl, rfl, rfl, fun n hn => hn⟩
  · rw [if_neg h]
    exact ⟨rfl, rfl, rfl, fun n hn => List.mem_append_left _ hn⟩

theorem get_classifier_fields {Emb : Type} (cfg : ClassifierConfig)
    (st : InfState Emb) :
    (get_classifier cfg st).embCache = st.embCache ∧
    (get_classifier cfg st).extractLog = st.extractLog ∧
    (get_classifier cfg st).loadLog = st.loadLog ∧
    (get_classifier cfg st).extractors = st.extractors := by
  rw [get_classifier]
  by_cases h : cfg.model_path ∈ st.classifiers
  · rw [if_pos h]
    exact ⟨rfl, rfl, rfl, rfl⟩
  · rw [if_neg h]
    exact ⟨rfl, rfl, rfl, rfl⟩

theorem get_embeddings_hit {Emb A : Type} (extract : String → A → Emb)
    (audio : A) (p n : String) (st : InfState Emb) (e : Emb)
    (h : cacheLookup st.embCache (p, n) = some e) :
    get_embeddings extract audio p n st = (e, st) := by
  rw [get_embeddings, h]

theorem get_embeddings_miss {Emb A : Type} (extract : String → A → Emb)
    (audio : A) (p n : String) (st : InfState Emb)
    (h : cacheLookup st.embCache (p, n) = none) :
    get_embeddings extract audio p n st
      = (extract n audio,
         { get_embedding_extractor n st with
             embCache :=
               ((p, n), extract n audio)
                 :: (get_embedding_extractor n st).embCache,
             extractLog :=
               (get_embedding_extractor n st).extractLog ++ [(p, n)] }) := by
  rw [get_embeddings, h]

theorem run_classifiers_cons {Emb A : Type} (extract : String → A → Emb)
    (predict : ClassifierConfig → Emb → Except String (List (List ℚ)))
    (audio : A) (audio_path : String) (c : ClassifierConfig)
    (rest : List ClassifierConfig) (st : InfState Emb) :
    run_classifiers extract predict audio audio_path (c :: rest) st
      = match (run_classifier extract predict audio audio_path c st).1 with
        | Except.ok p =>
            (p :: (run_classifiers extract predict audio audio_path rest
                    (run_classifier extract predict audio audio_path c st).2).1,
             (run_classifiers extract predict audio audio_path rest
                (run_classifier extract predict audio audio_path c st).2).2)
        | Except.error _ =>
            run_classifiers extract predict audio audio_path rest
              (run_classifier extract predict audio audio_path c st).2 := by
  rw [run_classifiers]
  rcases h : run_classifier extract predict audio audio_path c st with ⟨r1, st1⟩
  cases r1 <;> simp

/-- Main invariant of the classifier loop: the predictions produced are
the per-classifier pure outcomes in order; the extract log grows by a
duplicate-free list holding exactly the `(audio, model)` keys referenced
by the configs and not already cached; the cache keys grow by exactly
the referenced keys; the extractor-handle cache only grows; cached
values stay extraction values; and the load log is untouched. -/
theorem run_classifiers_spec {Emb A : Type} (extract : String → A → Emb)
    (predict : ClassifierConfig → Emb → Except String (List (List ℚ)))
    (audio : A) (audio_path : String) :
    ∀ (cfgs : List ClassifierConfig) (st : InfState Emb),
      (∀ e ∈ st.embCache, e.1.1 = audio_path → e.2 = extract e.1.2 audio) →
      (run_classifiers extract predict audio audio_path cfgs st).1
        = cfgs.filterMap (run_classifier_pure extract predict audio) ∧
      (∃ L, (run_classifiers extract predict audio audio_path cfgs st).2.extractLog
            = st.extractLog ++ L ∧ L.Nodup ∧
          (∀ q, q ∈ L ↔ q ∉ st.embCache.map Prod.fst ∧
            ∃ c ∈ cfgs, q = (audio_path, c.embedding_model.name)) ∧
          (∀ q, q ∈ (run_classifiers extract predict audio audio_path
                cfgs st).2.embCache.map Prod.fst
            ↔ q ∈ st.embCache.map Prod.fst ∨
              ∃ c ∈ cfgs, q = (audio_path, c.embedding_model.name))) ∧
      (∀ n ∈ st.extractors,
        n ∈ (run_classifiers extract predict audio audio_path cfgs st).2.extractors) ∧
      (∀ e ∈ (run_classifiers extract predict audio audio_path cfgs st).2.embCache,
        e.1.1 = audio_path → e.2 = extract e.1.2 audio) ∧
      (run_classifiers extract predict audio audio_path cfgs st).2.loadLog
        = st.loadLog := by
  intro cfgs
  induction cfgs with
  | nil =>
      intro st hcache
      refine ⟨rfl, ⟨[], ?_, List.nodup_nil, ?_, ?_⟩, fun n hn => hn,
              hcache, rfl⟩
      · show st.extractLog = st.extractLog ++ []
        rw [List.append_nil]
      · intro q; simp
      · intro q
        show q ∈ st.embCache.map Prod.fst ↔ _
        simp
  | cons c rest ih =>
      intro st hcache
      cases hlk : cacheLookup st.embCache (audio_path, c.embedding_model.name) with
      | some e =>
          have he : e = extract c.embedding_model.name audio :=
            hcache _ (cacheLookup_mem _ _ _ hlk) rfl
          have hkey : (audio_path, c.embedding_model.name)
              ∈ st.embCache.map Prod.fst := by
            by_contra hq
            rw [← cacheLookup_none_iff] at hq
            rw [hlk] at hq
            exact Option.noConfusion hq
          have hrc : run_classifier extract predict audio audio_path c st
              = (match predict c e with
                 | Except.error msg => (Except.error msg, get_classifier c st)
                 | Except.ok preds =>
                     (Except.ok (make_prediction_result c preds),
                      get_classifier c st)) := by
            rw [run_classifier, get_embeddings_hit extract audio _ _ st e hlk]
          have hfields := get_classifier_fields c st
          have hcache2 : ∀ x ∈ (get_classifier c st).embCache,
              x.1.1 = audio_path → x.2 = extract x.1.2 audio := by
            rw [hfields.1]; exact hcache
          obtain ⟨ih1, ⟨L, hL1, hL2, hL3, hL4⟩, ih3, ih4, ih5⟩ :=
            ih (get_classifier c st) hcache2
          have hpure : run_classifier_pure extract predict audio c
              = (match predict c e with
                 | Except.error _ => none
                 | Except.ok preds => some (make_prediction_result c preds)) := by
            rw [run_classifier_pure, ← he]
          have hmemiff : ∀ q : String × String,
              q ∈ L ↔ q ∉ st.embCache.map Prod.fst ∧
                ∃ c' ∈ c :: rest, q = (audio_path, c'.embedding_model.name) := by
            intro q
            rw [hL3 q, hfields.1]
            simp only [List.mem_cons]
            constructor
            · rintro ⟨hq1, c', hc', hq2⟩
              exact ⟨hq1, c', Or.inr hc', hq2⟩
            · rintro ⟨hq1, c', hc' | hc', hq2⟩
              · subst hc'
                subst hq2
                exact absurd hkey hq1
              · exact ⟨hq1, c', hc', hq2⟩
          have hkeyiff : ∀ q : String × String,
              q ∈ (run_classifiers extract predict audio audio_path rest
                    (get_classifier c st)).2.embCache.map Prod.fst
                ↔ q ∈ st.embCache.map Prod.fst ∨
                  ∃ c' ∈ c :: rest, q = (audio_path, c'.embedding_model.name) := by
            intro q
            rw [hL4 q, hfields.1]
            simp only [List.mem_cons]
            constructor
            · rintro (hq | ⟨c', hc', hq2⟩)
              · exact Or.inl hq
              · exact Or.inr ⟨c', Or.inr hc', hq2⟩
            · rintro (hq | ⟨c', hc' | hc', hq2⟩)
              · exact Or.inl hq
              · subst hc'
                subst hq2
                exact Or.inl hkey
              · exact Or.inr ⟨c', hc', hq2⟩
          cases hpred : predict c e with
          | error msg =>
              have hrun : run_classifiers extract predict audio audio_path
                  (c :: rest) st
                  = run_classifiers extract predict audio audio_path rest
                      (get_classifier c st) := by
                rw [run_classifiers_cons, hrc, hpred]
              rw [hrun]
              refine ⟨?_, ⟨L, ?_, hL2, hmemiff, hkeyiff⟩, ?_, ih4, ?_⟩
              · rw [ih1, List.filterMap_cons, hpure, hpred]
              · rw [hL1, hfields.2.1]
              · intro n hn
                exact ih3 n (by rw [hfields.2.2.2]; exact hn)
              · rw [ih5, hfields.2.2.1]
          | ok preds =>
              have hrun : run_classifiers extract predict audio audio_path
                  (c :: rest) st
                  = (make_prediction_result c preds
                      :: (run_classifiers extract predict audio audio_path rest
                           (get_classifier c st)).1,
                     (run_classifiers extract predict audio audio_path rest
                       (get_classifier c st)).2) := by
                rw [run_classifiers_cons, hrc, hpred]
              rw [hrun]
              refine ⟨?_, ⟨L, ?_, hL2, hmemiff, hkeyiff⟩, ?_, ih4, ?_⟩
              · rw [ih1, List.filterMap_cons, hpure, hpred]
              · rw [hL1, hfields.2.1]
              · intro n hn
                exact ih3 n (by rw [hfields.2.2.2]; exact hn)
              · rw [ih5, hfields.2.2.1]
      | none =>
          have hkey : (audio_path, c.embedding_model.name)
              ∉ st.embCache.map Prod.fst :=
            (cacheLookup_none_iff _ _).mp hlk
          have hee := get_embedding_extractor_fields
            c.embedding_model.name st
          have hrc : run_classifier extract predict audio audio_path c st
              = (match predict c (extract c.embedding_model.name audio) with
                 | Except.error msg =>
                     (Except.error msg,
                      get_classifier c
                        { get_embedding_extractor c.embedding_model.name st with
                            embCache :=
                              ((audio_path, c.embedding_model.name),
                               extract c.embedding_model.name audio)
                                :: (get_embedding_extractor
                                    c.embedding_model.name st).embCache,
                            extractLog :=
                              (get_embedding_extractor
                                c.embedding_model.name st).extractLog
                                ++ [(audio_path, c.embedding_model.name)] })
                 | Except.ok preds =>
                     (Except.ok (make_prediction_result c preds),
                      get_classifier c
                        { get_embedding_extractor c.embedding_model.name st with
                            embCache :=
                              ((audio_path, c.embedding_model.name),
                               extract c.embedding_model.name audio)
                                :: (get_embedding_extractor
                                    c.embedding_model.name st).embCache,
                            extractLog :=
                              (get_embedding_extractor
                                c.embedding_model.name st).extractLog
                                ++ [(audio_path, c.embedding_model.name)] })) := by
            rw [run_classifier, get_embeddings_miss extract audio _ _ st hlk]
          set stm : InfState Emb :=
            { get_embedding_extractor c.embedding_model.name st with
                embCache :=
                  ((audio_path, c.embedding_model.name),
                   extract c.embedding_model.name audio)
                    :: (get_embedding_extractor
                        c.embedding_model.name st).embCache,
                extractLog :=
                  (get_embedding_extractor c.embedding_model.name st).extractLog
                    ++ [(audio_path, c.embedding_model.name)] } with hstm
          have hm1 : stm.embCache
              = ((audio_path, c.embedding_model.name),
                 extract c.embedding_model.name audio) :: st.embCache := by
            rw [hstm]
            show ((audio_path, c.embedding_model.name),
                 extract c.embedding_model.name audio)
                :: (get_embedding_extractor c.embedding_model.name st).embCache
              = _
            rw [hee.1]
          have hm2 : stm.extractLog
              = st.extractLog ++ [(audio_path, c.embedding_model.name)] := by
            rw [hstm]
            show (get_embedding_extractor c.embedding_model.name st).extractLog
                ++ [(audio_path, c.embedding_model.name)] = _
            rw [hee.2.1]
          have hm3 : stm.loadLog = st.loadLog := by
            rw [hstm]
            show (get_embedding_extractor c.embedding_model.name st).loadLog = _
            rw [hee.2.2.1]
          have hm4 : ∀ n ∈ st.extractors, n ∈ stm.extractors := by
            intro n hn
            rw [hstm]
            exact hee.2.2.2 n hn
          have hfields := get_classifier_fields c stm
          have hcache2 : ∀ x ∈ (get_classifier c stm).embCache,
              x.1.1 = audio_path → x.2 = extract x.1.2 audio := by
            rw [hfields.1, hm1]
            intro x hx
            rcases List.mem_cons.mp hx with hx | hx
            · subst hx
              intro _
              rfl
            · exact hcache x hx
          obtain ⟨ih1, ⟨L, hL1, hL2, hL3, hL4⟩, ih3, ih4, ih5⟩ :=
            ih (get_classifier c stm) hcache2
          have hpure : run_classifier_pure extract predict audio c
              = (match predict c (extract c.embedding_model.name audio) with
                 | Except.error _ => none
                 | Except.ok preds => some (make_prediction_result c preds)) := by
            rw [run_classifier_pure]
          have hstmkeys : ∀ q : String × String,
              q ∈ (get_classifier c stm).embCache.map Prod.fst
                ↔ q = (audio_path, c.embedding_model.name) ∨
                  q ∈ st.embCache.map Prod.fst := by
            intro q
            rw [hfields.1, hm1]
            simp
          have hknotL : (audio_path, c.embedding_model.name) ∉ L := by
            intro hq
            have h1 := (hL3 _).mp hq
            exact h1.1 ((hstmkeys _).mpr (Or.inl rfl))
          have hlog : (run_classifiers extract predict audio audio_path rest
                (get_classifier c stm)).2.extractLog
              = st.extractLog ++ ((audio_path, c.embedding_model.name) :: L) := by
            rw [hL1, hfields.2.1, hm2, List.append_assoc]
            rfl
          have hmemiff : ∀ q : String × String,
              q ∈ (audio_path, c.embedding_model.name) :: L
                ↔ q ∉ st.embCache.map Prod.fst ∧
                  ∃ c' ∈ c :: rest, q = (audio_path, c'.embedding_model.name) := by
            intro q
            rw [List.mem_cons, hL3 q]
            simp only [List.mem_cons]
            constructor
            · rintro (hq | ⟨hq1, c', hc', hq2⟩)
              · subst hq
                exact ⟨hkey, c, Or.inl rfl, rfl⟩
              · refine ⟨?_, c', Or.inr hc', hq2⟩
                intro hmem
                exact hq1 ((hstmkeys _).mpr (Or.inr hmem))
            · rintro ⟨hq1, c', hc' | hc', hq2⟩
              · subst hc'
                exact Or.inl hq2
              · by_cases hqk : q = (audio_path, c.embedding_model.name)
                · exact Or.inl hqk
                · refine Or.inr ⟨?_, c', hc', hq2⟩
                  intro hmem
                  rcases (hstmkeys _).mp hmem with h | h
                  · exact hqk h
                  · exact hq1 h
          have hkeyiff : ∀ q : String × String,
              q ∈ (run_classifiers extract predict audio audio_path rest
                    (get_classifier c stm)).2.embCache.map Prod.fst
                ↔ q ∈ st.embCache.map Prod.fst ∨
                  ∃ c' ∈ c :: rest, q = (audio_path, c'.embedding_model.name) := by
            intro q
            rw [hL4 q]
            simp only [List.mem_cons]
            constructor
            · rintro (hq | ⟨c', hc', hq2⟩)
              · rcases (hstmkeys _).mp hq with h | h
                · exact Or.inr ⟨c, Or.inl rfl, h⟩
                · exact Or.inl h
              · exact Or.inr ⟨c', Or.inr hc', hq2⟩
            · rintro (hq | ⟨c', hc' | hc', hq2⟩)
              · exact Or.inl ((hstmkeys _).mpr (Or.inr hq))
              · subst hc'
                exact Or.inl ((hstmkeys _).mpr (Or.inl hq2))
              · exact Or.inr ⟨c', hc', hq2⟩
          have hextr : ∀ n ∈ st.extractors,
              n ∈ (run_classifiers extract predict audio audio_path rest
                    (get_classifier c stm)).2.extractors := by
            intro n hn
            apply ih3
            rw [hfields.2.2.2]
            exact hm4 n hn
          have hload : (run_classifiers extract predict audio audio_path rest
                (get_classifier c stm)).2.loadLog = st.loadLog := by
            rw [ih5, hfields.2.2.1, hm3]
          have hnodup : ((audio_path, c.embedding_model.name) :: L).Nodup :=
            List.nodup_cons.mpr ⟨hknotL, hL2⟩
          cases hpred : predict c (extract c.embedding_model.name audio) with
          | error msg =>
              have hrun : run_classifiers extract predict audio audio_path
                  (c :: rest) st
                  = run_classifiers extract predict audio audio_path rest
                      (get_classifier c stm) := by
                rw [run_classifiers_cons, hrc, hpred]
              rw [hrun]
              refine ⟨?_, ⟨(audio_path, c.embedding_model.name) :: L,
                hlog, hnodup, hmemiff, hkeyiff⟩, hextr, ih4, hload⟩
              rw [ih1, List.filterMap_cons, hpure, hpred]
          | ok preds =>
              have hrun : run_classifiers extract predict audio audio_path
                  (c :: rest) st
                  = (make_prediction_result c preds
                      :: (run_classifiers extract predict audio audio_path rest
                           (get_classifier c stm)).1,
                     (run_classifiers extract predict audio audio_path rest
                       (get_classifier c stm)).2) := by
                rw [run_classifiers_cons, hrc, hpred]
              rw [hrun]
              refine ⟨?_, ⟨(audio_path, c.embedding_model.name) :: L,
                hlog, hnodup, hmemiff, hkeyiff⟩, hextr, ih4, hload⟩
              rw [ih1, List.filterMap_cons, hpure, hpred]

theorem analyze_audio_cons {Emb A : Type} (load : String → ℤ → Except String A)
    (get_duration : A → ℤ → ℚ) (extract : String → A → Emb)
    (predict : ClassifierConfig → Emb → Except String (List (List ℚ)))
    (c0 : ClassifierConfig) (rest : List ClassifierConfig)
    (audio_path : String) (st : InfState Emb) (a : A)
    (hload : load audio_path c0.embedding_model.sample_rate = Except.ok a) :
    analyze_audio load get_duration extract predict (c0 :: rest) audio_path st
      = (Except.ok
          { audio_path := audio_path,
            audio_duration_seconds :=
              get_duration a c0.embedding_model.sample_rate,
            sample_rate := c0.embedding_model.sample_rate,
            predictions :=
              (run_classifiers extract predict a audio_path (c0 :: rest)
                { st with loadLog := st.loadLog ++ [audio_path] }).1 },
         { (run_classifiers extract predict a audio_path (c0 :: rest)
             { st with loadLog := st.loadLog ++ [audio_path] }).2 with
             embCache := [] }) := by
  rw [analyze_audio, hload]

/-- C6: within one `analyze_audio` call starting with an empty per-item
embeddings cache, the extraction routine is invoked exactly once per
distinct embedding model referenced by the configured classifiers (the
new extract-log entries are duplicate-free, all belong to this audio
path, and a model name appears among them iff some classifier references
it — so two classifiers sharing one embedding model cause exactly one
extraction); the item-scoped embeddings cache is empty again when
`analyze_audio` returns; and the extractor-handle cache only grows. -/
theorem C6_embedding_cache {Emb A : Type} (load : String → ℤ → Except String A)
    (get_duration : A → ℤ → ℚ) (extract : String → A → Emb)
    (predict : ClassifierConfig → Emb → Except String (List (List ℚ)))
    (configs : List ClassifierConfig) (audio_path : String) (st : InfState Emb)
    (hcache : st.embCache = [])
    (hload : ∀ sr : ℤ, ∃ a : A, load audio_path sr = Except.ok a) :
    (analyze_audio load get_duration extract predict configs audio_path
      st).2.embCache = [] ∧
    (∀ n ∈ st.extractors,
      n ∈ (analyze_audio load get_duration extract predict configs audio_path
            st).2.extractors) ∧
    ∃ L, (analyze_audio load get_duration extract predict configs audio_path
            st).2.extractLog = st.extractLog ++ L ∧
      L.Nodup ∧
      (∀ q ∈ L, q.1 = audio_path) ∧
      (∀ m : String, (audio_path, m) ∈ L
        ↔ ∃ c ∈ configs, c.embedding_model.name = m) := by
  cases configs with
  | nil =>
      refine ⟨hcache, fun n hn => hn, [], ?_, List.nodup_nil, ?_, ?_⟩
      · show st.extractLog = st.extractLog ++ []
        rw [List.append_nil]
      · intro q hq
        exact absurd hq (List.not_mem_nil q)
      · intro m
        simp
  | cons c0 rest =>
      obtain ⟨a, ha⟩ := hload c0.embedding_model.sample_rate
      rw [analyze_audio_cons load get_duration extract predict c0 rest
        audio_path st a ha]
      have hcache1 : ∀ e ∈ ({ st with loadLog := st.loadLog ++ [audio_path] }
          : InfState Emb).embCache, e.1.1 = audio_path →
            e.2 = extract e.1.2 a := by
        show ∀ e ∈ st.embCache, _
        rw [hcache]
        intro e he
        exact absurd he (List.not_mem_nil e)
      obtain ⟨h1, ⟨L, hL1, hL2, hL3, hL4⟩, hextr, h4, h5⟩ :=
        run_classifiers_spec extract predict a audio_path (c0 :: rest)
          { st with loadLog := st.loadLog ++ [audio_path] } hcache1
      have hkeys : ({ st with loadLog := st.loadLog ++ [audio_path] }
          : InfState Emb).embCache.map Prod.fst = [] := by
        show st.embCache.map Prod.fst = []
        rw [hcache]
        rfl
      refine ⟨rfl, ?_, L, ?_, hL2, ?_, ?_⟩
      · intro n hn
        exact hextr n hn
      · show (run_classifiers extract predict a audio_path (c0 :: rest)
            { st with loadLog := st.loadLog ++ [audio_path] }).2.extractLog = _
        rw [hL1]
      · intro q hq
        obtain ⟨_, c', _, hq2⟩ := (hL3 q).mp hq
        rw [hq2]
      · intro m
        rw [hL3 (audio_path, m), hkeys]
        simp only [List.not_mem_nil, not_false_iff, true_and]
        constructor
        · rintro ⟨c', hc', hq⟩
          exact ⟨c', hc', (Prod.mk.injEq _ _ _ _ ▸ hq).2.symm⟩
        · rintro ⟨c', hc', hq⟩
          exact ⟨c', hc', by rw [hq]⟩

/-- C7: on an audio item that loads successfully, `analyze_audio` with
classifiers `c0 :: rest` returns a result whose predictions list is
exactly the in-order per-classifier successful outcomes — so its length
is at most the number of configured classifiers, a classifier that
raises is skipped while earlier partial predictions are kept and later
classifiers still run — and, whenever the classifier execution produces
rows of its declared class width, every returned element's class-label
count equals each of its prediction vectors' width. -/
theorem C7_partial_predictions {Emb A : Type}
    (load : String → ℤ → Except String A) (get_duration : A → ℤ → ℚ)
    (extract : String → A → Emb)
    (predict : ClassifierConfig → Emb → Except String (List (List ℚ)))
    (c0 : ClassifierConfig) (rest : List ClassifierConfig)
    (audio_path : String) (st : InfState Emb) (a : A)
    (hcache : st.embCache = [])
    (hload : load audio_path c0.embedding_model.sample_rate = Except.ok a)
    (hw : ∀ (c : ClassifierConfig) (e : Emb) (m : List (List ℚ)),
        predict c e = Except.ok m → ∀ row ∈ m, row.length = c.classes.length) :
    ∃ res : AudioAnalysisResult,
      (analyze_audio load get_duration extract predict (c0 :: rest)
        audio_path st).1 = Except.ok res ∧
      res.predictions.length ≤ (c0 :: rest).length ∧
      (∀ p ∈ res.predictions,
        ∀ row ∈ p.segment_predictions, row.length = p.classes.length) ∧
      res.predictions
        = (c0 :: rest).filterMap (run_classifier_pure extract predict a) := by
  rw [analyze_audio_cons load get_duration extract predict c0 rest
    audio_path st a hload]
  have hcache1 : ∀ e ∈ ({ st with loadLog := st.loadLog ++ [audio_path] }
      : InfState Emb).embCache, e.1.1 = audio_path →
        e.2 = extract e.1.2 a := by
    show ∀ e ∈ st.embCache, _
    rw [hcache]
    intro e he
    exact absurd he (List.not_mem_nil e)
  obtain ⟨h1, _, _, _, _⟩ :=
    run_classifiers_spec extract predict a audio_path (c0 :: rest)
      { st with loadLog := st.loadLog ++ [audio_path] } hcache1
  refine ⟨_, rfl, ?_, ?_, ?_⟩
  · show (run_classifiers extract predict a audio_path (c0 :: rest)
        { st with loadLog := st.loadLog ++ [audio_path] }).1.length ≤ _
    rw [h1]
    exact List.length_filterMap_le _ _
  · intro p hp
    show ∀ row ∈ p.segment_predictions, row.length = p.classes.length
    rw [h1] at hp
    obtain ⟨c, _, hc2⟩ := List.mem_filterMap.mp hp
    rw [run_classifier_pure] at hc2
    cases hpred : predict c (extract c.embedding_model.name a) with
    | error msg => rw [hpred] at hc2; exact Option.noConfusion hc2
    | ok m =>
        rw [hpred] at hc2
        injection hc2 with hc2
        subst hc2
        intro row hrow
        exact hw c _ m hpred row hrow
  · exact h1

/-- C10: with an empty classifier list, `analyze_audio` raises the
`ValueError` "No classifiers configured" and leaves the state — in
particular the audio-load log — untouched, so no audio is loaded; and
`analyze_batch`, which catches each per-item failure, returns the empty
result list for every input path list. -/
theorem C10_no_classifiers {Emb A : Type}
    (load : String → ℤ → Except String A) (get_duration : A → ℤ → ℚ)
    (extract : String → A → Emb)
    (predict : ClassifierConfig → Emb → Except String (List (List ℚ)))
    (audio_path : String) (paths : List String) (st : InfState Emb) :
    analyze_audio load get_duration extract predict [] audio_path st
      = (Except.error "No classifiers configured", st) ∧
    analyze_batch load get_duration extract predict [] paths st = ([], st) := by
  refine ⟨rfl, ?_⟩
  induction paths with
  | nil => rfl
  | cons p rest ih =>
      rw [show analyze_batch load get_duration extract predict [] (p :: rest) st
          = analyze_batch load get_duration extract predict [] rest st from rfl]
      exact ih

/-- A freshly constructed pipeline state (all caches and logs empty),
used by the inference witnesses. -/
def inf_state0 : InfState ℕ :=
  { extractors := [], classifiers := [], embCache := [],
    extractLog := [], loadLog := [] }

/-- A first classifier config for the inference witnesses. -/
def cfg_infer1 : ClassifierConfig :=
  { name := "genre_rosamerica", version := "2", description := "",
    algorithm := "TensorflowPredict2D",
    model_path := "heads/genre_rosamerica/genre_rosamerica.pb",
    sample_rate := 16000, classes := [], input_node := "in",
    output_node := "out", embedding_model := emb_sample, metadata := [] }

/-- A second classifier config referencing the same embedding model,
for the inference witnesses. -/
def cfg_infer2 : ClassifierConfig :=
  { cfg_infer1 with name := "mood_happy",
                    model_path := "heads/mood_happy/mood_happy.pb" }

/-- A classifier config whose execution raises, for the C7 witness. -/
def cfg_bad : ClassifierConfig :=
  { cfg_infer1 with name := "bad", model_path := "heads/bad/bad.pb" }

/-- Witness for C6: two classifiers sharing one embedding model on one
audio item. -/
theorem C6_witness :
    inf_state0.embCache = [] ∧
    (∀ sr : ℤ, ∃ a : ℕ,
      (fun (_ : String) (_ : ℤ) => (Except.ok 0 : Except String ℕ))
        "track.mp3" sr = Except.ok a) ∧
    ((analyze_audio (fun _ _ => (Except.ok 0 : Except String ℕ))
        (fun _ _ => (0 : ℚ)) (fun _ _ => (0 : ℕ))
        (fun _ _ => (Except.ok [] : Except String (List (List ℚ))))
        [cfg_infer1, cfg_infer2] "track.mp3" inf_state0).2.embCache = [] ∧
     (∀ n ∈ inf_state0.extractors,
       n ∈ (analyze_audio (fun _ _ => (Except.ok 0 : Except String ℕ))
            (fun _ _ => (0 : ℚ)) (fun _ _ => (0 : ℕ))
            (fun _ _ => (Except.ok [] : Except String (List (List ℚ))))
            [cfg_infer1, cfg_infer2] "track.mp3" inf_state0).2.extractors) ∧
     ∃ L, (analyze_audio (fun _ _ => (Except.ok 0 : Except String ℕ))
            (fun _ _ => (0 : ℚ)) (fun _ _ => (0 : ℕ))
            (fun _ _ => (Except.ok [] : Except String (List (List ℚ))))
            [cfg_infer1, cfg_infer2] "track.mp3" inf_state0).2.extractLog
          = inf_state0.extractLog ++ L ∧
       L.Nodup ∧
       (∀ q ∈ L, q.1 = "track.mp3") ∧
       (∀ m : String, ("track.mp3", m) ∈ L
         ↔ ∃ c ∈ [cfg_infer1, cfg_infer2], c.embedding_model.name = m)) :=
  ⟨rfl, fun _ => ⟨0, rfl⟩,
   C6_embedding_cache (fun _ _ => (Except.ok 0 : Except String ℕ))
     (fun _ _ => (0 : ℚ)) (fun _ _ => (0 : ℕ))
     (fun _ _ => (Except.ok [] : Except String (List (List ℚ))))
     [cfg_infer1, cfg_infer2] "track.mp3" inf_state0 rfl
     (fun _ => ⟨0, rfl⟩)⟩

/-- Witness for C7: three classifiers of which the middle one raises. -/
theorem C7_witness :
    inf_state0.embCache = [] ∧
    ((fun (_ : String) (_ : ℤ) => (Except.ok 0 : Except String ℕ))
      "track.mp3" cfg_infer1.embedding_model.sample_rate = Except.ok 0) ∧
    (∀ (c : ClassifierConfig) (e : ℕ) (m : List (List ℚ)),
      (fun (c : ClassifierConfig) (_ : ℕ) =>
        if c.name = "bad" then (Except.error "boom" : Except String (List (List ℚ)))
        else Except.ok []) c e = Except.ok m →
      ∀ row ∈ m, row.length = c.classes.length) ∧
    (∃ res : AudioAnalysisResult,
      (analyze_audio (fun _ _ => (Except.ok 0 : Except String ℕ))
        (fun _ _ => (0 : ℚ)) (fun _ _ => (0 : ℕ))
        (fun (c : ClassifierConfig) (_ : ℕ) =>
          if c.name = "bad" then (Except.error "boom" : Except String (List (List ℚ)))
          else Except.ok [])
        (cfg_infer1 :: [cfg_bad, cfg_infer2]) "track.mp3" inf_state0).1
        = Except.ok res ∧
      res.predictions.length ≤ (cfg_infer1 :: [cfg_bad, cfg_infer2]).length ∧
      (∀ p ∈ res.predictions,
        ∀ row ∈ p.segment_predictions, row.length = p.classes.length) ∧
      res.predictions
        = (cfg_infer1 :: [cfg_bad, cfg_infer2]).filterMap
            (run_classifier_pure (fun _ _ => (0 : ℕ))
              (fun (c : ClassifierConfig) (_ : ℕ) =>
                if c.name = "bad"
                then (Except.error "boom" : Except String (List (List ℚ)))
                else Except.ok []) 0)) := by
  have hw : ∀ (c : ClassifierConfig) (e : ℕ) (m : List (List ℚ)),
      (fun (c : ClassifierConfig) (_ : ℕ) =>
        if c.name = "bad" then (Except.error "boom" : Except String (List (List ℚ)))
        else Except.ok []) c e = Except.ok m →
      ∀ row ∈ m, row.length = c.classes.length := by
    intro c e m hm row hrow
    by_cases hname : c.name = "bad"
    · simp [hname] at hm
    · simp [hname] at hm
      subst hm
      exact absurd hrow (List.not_mem_nil row)
  exact ⟨rfl, rfl, hw,
    C7_partial_predictions (fun _ _ => (Except.ok 0 : Except String ℕ))
      (fun _ _ => (0 : ℚ)) (fun _ _ => (0 : ℕ))
      (fun (c : ClassifierConfig) (_ : ℕ) =>
        if c.name = "bad" then (Except.error "boom" : Except String (List (List ℚ)))
        else Except.ok [])
      cfg_infer1 [cfg_bad, cfg_infer2] "track.mp3" inf_state0 0 rfl rfl hw⟩

end TechnoTaggr
